import Mathlib

/-!
# Habit Garden: the time-aggregation and session-accounting engine of `src/app.js`

A shallow embedding of the engine of `app.js` (range aggregator, week calendar, weekly
chart series, heatmap grid, session filter, session store) followed by the properties
proved about it. The rendering code around it is left out.

Modelling conventions.
* An instant (`Date.now()`, `getTime()`, `session.start`, ...) is an integer number of
  milliseconds since the epoch, `Int`.
* Hours are modelled twice. `sessionsInRange`, `round2` and the heatmap work in exact
  arithmetic, on rationals `ℚ`: the division by `1000*60*60`, the sums and `Math.round` are
  carried out without floating rounding, and the percentile arguments `0.2 .. 0.8` are the
  rationals `2/10 .. 8/10`. `sessionsInRangeDouble` is the same aggregator on IEEE doubles,
  with the rounding of every division and addition.
* The local time zone is a `Zone`, whose offset from UTC may change with the instant.
* Week counts (`weeks`) are integers.
* `null` is `none`; the truthiness test of a value that is `null` or a number is `truthy`
  (`null` and `0` are both falsy, as in JavaScript).
* Functions that read the clock, the random id generator or the global `filters` take what
  they read as arguments; functions that mutate `state` return the new state.
* A function that can throw returns an `Option`, `none` for the throw.
-/

namespace HabitGarden

/-- A completed session `{ start, end, durationHours }` (the field `end` is written `end_`). -/
structure Session where
  start : Int
  end_ : Int
  durationHours : ℚ
  deriving DecidableEq, Repr

/-- The body of the `.map` callback of `sessionsInRange`: the clipped length in hours. -/
def clippedHours (rangeStart rangeEnd : Int) (s : Session) : ℚ :=
  let st := max s.start rangeStart
  let ed := min s.end_ rangeEnd
  ((ed - st : Int) : ℚ) / (1000 * 60 * 60)

/-- The predicate of the `.filter` callback of `sessionsInRange`. -/
def overlaps (rangeStart rangeEnd : Int) (s : Session) : Bool :=
  decide (s.start ≤ rangeEnd) && decide (s.end_ ≥ rangeStart)

/-- `sessionsInRange(sessions, rangeStart, rangeEnd)` in exact arithmetic: filter, map,
reduce with `+` from 0. -/
def sessionsInRange (sessions : List Session) (rangeStart rangeEnd : Int) : ℚ :=
  ((sessions.filter (overlaps rangeStart rangeEnd)).map (clippedHours rangeStart rangeEnd)).foldl
    (fun a b => a + b) 0

/-- Number of sessions that start before the cut `m` and end at or after it. -/
def straddling (sessions : List Session) (m : Int) : Nat :=
  (sessions.filter (fun s => decide (s.start ≤ m - 1) && decide (s.end_ ≥ m))).length

/-- The contribution of one session to `sessionsInRange`. -/
def contribution (rangeStart rangeEnd : Int) (s : Session) : ℚ :=
  if overlaps rangeStart rangeEnd s then clippedHours rangeStart rangeEnd s else 0

/-! ### The aggregator on doubles

The code computes the hours in IEEE 754 binary64. A finite double is the number `m * 2^e`;
division and addition round the exact result to the nearest double, ties to the even
significand (53 bits, least exponent -1074). Overflow to `Infinity`, `NaN` and the sign of
zero do not arise for the quotients and sums of the aggregator and are not modelled.
Instants are whole numbers of milliseconds below 2^53 in size, which doubles hold exactly. -/

/-- A finite double, the number `m * 2^e` in lowest terms: `m` is odd, or `m = 0` and
`e = 0`. -/
structure Dbl where
  m : Int
  e : Int
  deriving DecidableEq, Repr

/-- The exact value of a double. -/
def Dbl.toRat (x : Dbl) : ℚ := (x.m : ℚ) * (2 : ℚ) ^ x.e

/-- `m * 2^e` in lowest terms, for `m` other than 0: up to `k` factors 2 are moved from `m`
to the exponent. -/
def lowestTerms : Nat → Int → Int → Dbl
  | 0, m, e => ⟨m, e⟩
  | k + 1, m, e => if m % 2 = 0 then lowestTerms k (m / 2) (e + 1) else ⟨m, e⟩

/-- `a / b` rounded to the nearest whole number, ties to the even one. -/
def roundHalfEven (a b : Nat) : Nat :=
  let q := a / b
  let r := a % b
  if 2 * r < b then q
  else if b < 2 * r then q + 1
  else if q % 2 = 0 then q else q + 1

/-- `floor(log2 n)` for `n > 0`, by halving at most `k` times. -/
def log2Fuel : Nat → Nat → Nat
  | 0, _ => 0
  | k + 1, n => if n < 2 then 0 else log2Fuel k (n / 2) + 1

/-- `floor(log2 n)` for `n > 0`. -/
def log2 (n : Nat) : Nat := log2Fuel n n

/-- `floor(log2 (n / d))` for `n, d > 0`. -/
def floorLog2 (n d : Nat) : Int :=
  let l : Int := (log2 n : Int) - (log2 d : Int)
  if 0 ≤ l then (if d * 2 ^ l.toNat ≤ n then l else l - 1)
  else (if d ≤ n * 2 ^ (-l).toNat then l else l - 1)

/-- The double nearest to `n / d` (`d > 0`), ties to even: the significand is `n / d` in
units of `2^u`, where `u` is 52 below the exponent of `n / d` and at least -1074. -/
def roundToDouble (n : Int) (d : Nat) : Dbl :=
  if n = 0 then ⟨0, 0⟩
  else
    let a := n.natAbs
    let u := max (floorLog2 a d - 52) (-1074)
    let m : Nat :=
      if 0 ≤ u then roundHalfEven a (d * 2 ^ u.toNat) else roundHalfEven (a * 2 ^ (-u).toNat) d
    if m = 0 then ⟨0, 0⟩ else lowestTerms 64 (if n < 0 then -(m : Int) else m) u

/-- `x + y` on doubles: the exact sum, rounded. -/
def Dbl.add (x y : Dbl) : Dbl :=
  let e := min x.e y.e
  let n := x.m * 2 ^ (x.e - e).toNat + y.m * 2 ^ (y.e - e).toNat
  if 0 ≤ e then roundToDouble (n * 2 ^ e.toNat) 1 else roundToDouble n (2 ^ (-e).toNat)

/-- `x / y` on doubles for `y` other than 0: the exact quotient, rounded. -/
def Dbl.div (x y : Dbl) : Dbl :=
  let s := x.e - y.e
  let n := if y.m < 0 then -x.m else x.m
  if 0 ≤ s then roundToDouble (n * 2 ^ s.toNat) y.m.natAbs
  else roundToDouble n (y.m.natAbs * 2 ^ (-s).toNat)

/-- The double nearest to the whole number `n` (`n` itself when `n` is below 2^53 in
size). -/
def Dbl.ofInt (n : Int) : Dbl := roundToDouble n 1

/-- The `.map` callback of `sessionsInRange` on doubles: `(ed - st) / (1000*60*60)`. -/
def clippedHoursDouble (rangeStart rangeEnd : Int) (s : Session) : Dbl :=
  let st := max s.start rangeStart
  let ed := min s.end_ rangeEnd
  Dbl.div (Dbl.ofInt (ed - st)) (Dbl.ofInt (1000 * 60 * 60))

/-- `sessionsInRange(sessions, rangeStart, rangeEnd)` on doubles: the `reduce` adds the
clipped lengths from left to right, rounding after each addition. -/
def sessionsInRangeDouble (sessions : List Session) (rangeStart rangeEnd : Int) : Dbl :=
  ((sessions.filter (overlaps rangeStart rangeEnd)).map
    (clippedHoursDouble rangeStart rangeEnd)).foldl Dbl.add ⟨0, 0⟩

/-! ### The `Date` object

The time-value arithmetic of the ECMAScript `Date` object (ECMA-262, "Date Objects"). A
`Date` is its time value, an integer number of milliseconds since the epoch. The local time
zone is a `Zone`: the offset from UTC in milliseconds may change with the instant, as it does
with daylight saving. The functions compute on time values that are not clipped; `TimeClip`,
which turns a time value beyond 8.64e15 ms into `NaN`, is kept apart, and invalid dates
(`NaN`) are outside the model. -/

/-- Milliseconds per day, `msPerDay`. -/
def msPerDay : Int := 86400000

/-- `Day(t) = floor(t / msPerDay)`. -/
def Day (t : Int) : Int := t / msPerDay

/-- `TimeWithinDay(t) = t modulo msPerDay`. -/
def TimeWithinDay (t : Int) : Int := t % msPerDay

/-- `DaysInYear(y)`. -/
def DaysInYear (y : Int) : Int :=
  if y % 4 ≠ 0 then 365 else if y % 100 ≠ 0 then 366 else if y % 400 ≠ 0 then 365 else 366

/-- `DayFromYear(y)`: the day number of the first day of year `y`. -/
def DayFromYear (y : Int) : Int :=
  365 * (y - 1970) + (y - 1969) / 4 - (y - 1901) / 100 + (y - 1601) / 400

/-- The largest `y` with `DayFromYear y <= d`, from the estimate `d / 365.2425` corrected by
at most one year. -/
def yearFromDay (d : Int) : Int :=
  let y := 1970 + (d * 400) / 146097
  if DayFromYear y > d then y - 1 else if DayFromYear (y + 1) ≤ d then y + 1 else y

/-- `YearFromTime(t)`: the largest `y` with `TimeFromYear(y) <= t`. -/
def YearFromTime (t : Int) : Int := yearFromDay (Day t)

/-- `InLeapYear(t)`: 1 in a leap year, 0 otherwise. -/
def InLeapYear (t : Int) : Int := if DaysInYear (YearFromTime t) = 366 then 1 else 0

/-- `DayWithinYear(t) = Day(t) - DayFromYear(YearFromTime(t))`. -/
def DayWithinYear (t : Int) : Int := Day t - DayFromYear (YearFromTime t)

/-- The month (0..11) of day `d` within a year; `leap` is 1 in a leap year. -/
def monthOfDay (d leap : Int) : Int :=
  if d < 31 then 0
  else if d < 59 + leap then 1
  else if d < 90 + leap then 2
  else if d < 120 + leap then 3
  else if d < 151 + leap then 4
  else if d < 181 + leap then 5
  else if d < 212 + leap then 6
  else if d < 243 + leap then 7
  else if d < 273 + leap then 8
  else if d < 304 + leap then 9
  else if d < 334 + leap then 10
  else 11

/-- `MonthFromTime(t)`: 0 for January up to 11 for December. -/
def MonthFromTime (t : Int) : Int := monthOfDay (DayWithinYear t) (InLeapYear t)

/-- The day of the month (from 1) of day `d` within a year, given its month `m`. -/
def dateOfDay (m d leap : Int) : Int :=
  if m = 0 then d + 1
  else if m = 1 then d - 30
  else if m = 2 then d - 58 - leap
  else if m = 3 then d - 89 - leap
  else if m = 4 then d - 119 - leap
  else if m = 5 then d - 150 - leap
  else if m = 6 then d - 180 - leap
  else if m = 7 then d - 211 - leap
  else if m = 8 then d - 242 - leap
  else if m = 9 then d - 272 - leap
  else if m = 10 then d - 303 - leap
  else d - 333 - leap

/-- `DateFromTime(t)`: the day of the month, from 1. -/
def DateFromTime (t : Int) : Int :=
  dateOfDay (MonthFromTime t) (DayWithinYear t) (InLeapYear t)

/-- `WeekDay(t) = (Day(t) + 4) modulo 7`: 0 is Sunday, 1 is Monday, ..., 6 is Saturday. -/
def WeekDay (t : Int) : Int := (Day t + 4) % 7

/-- The local time zone. `offsetAt t` is `LocalTZA(t, true)`, the offset from UTC (in ms) in
force at the UTC instant `t`; `offsetOfLocal t` is `LocalTZA(t, false)`, the offset with which
the local time value `t` is read. -/
structure Zone where
  offsetAt : Int → Int
  offsetOfLocal : Int → Int

/-- A zone whose offset from UTC never changes. -/
def fixedZone (offset : Int) : Zone :=
  { offsetAt := fun _ => offset, offsetOfLocal := fun _ => offset }

/-- The zone at offset 0 from UTC. -/
def utcZone : Zone := fixedZone 0

/-- `LocalTime(t) = t + LocalTZA(t, true)`. -/
def LocalTime (tz : Zone) (t : Int) : Int := t + tz.offsetAt t

/-- `UTC(t) = t - LocalTZA(t, false)`. -/
def UTC (tz : Zone) (t : Int) : Int := t - tz.offsetOfLocal t

/-- `MakeTime(hour, min, sec, ms)`. -/
def MakeTime (hour min sec ms : Int) : Int :=
  hour * 3600000 + min * 60000 + sec * 1000 + ms

/-- Day within the year on which month `mn` (0..11) begins; `leap` is 1 in a leap year. -/
def monthStartDay (mn leap : Int) : Int :=
  if mn = 0 then 0
  else if mn = 1 then 31
  else if mn = 2 then 59 + leap
  else if mn = 3 then 90 + leap
  else if mn = 4 then 120 + leap
  else if mn = 5 then 151 + leap
  else if mn = 6 then 181 + leap
  else if mn = 7 then 212 + leap
  else if mn = 8 then 243 + leap
  else if mn = 9 then 273 + leap
  else if mn = 10 then 304 + leap
  else 334 + leap

/-- `MakeDay(year, month, date)`: the day number of the first of the month `month` of
`year` (months beyond 0..11 carry into the year), plus `date - 1`. -/
def MakeDay (year month date : Int) : Int :=
  let ym := year + month / 12
  let mn := month % 12
  let leap : Int := if DaysInYear ym = 366 then 1 else 0
  DayFromYear ym + monthStartDay mn leap + date - 1

/-- `MakeDate(day, time)`. -/
def MakeDate (day time : Int) : Int := day * msPerDay + time

/-- `d.getDay()`. -/
def getDay (tz : Zone) (d : Int) : Int := WeekDay (LocalTime tz d)

/-- `d.getFullYear()`. -/
def getFullYear (tz : Zone) (d : Int) : Int := YearFromTime (LocalTime tz d)

/-- `d.getMonth()`. -/
def getMonth (tz : Zone) (d : Int) : Int := MonthFromTime (LocalTime tz d)

/-- `d.getDate()`. -/
def getDate (tz : Zone) (d : Int) : Int := DateFromTime (LocalTime tz d)

/-- `new Date(year, month, date)`: local midnight of that calendar day; a `year` from 0 to
99 stands for 1900 + `year`. -/
def newDate (tz : Zone) (year month date : Int) : Int :=
  let yr := if 0 ≤ year ∧ year ≤ 99 then 1900 + year else year
  UTC tz (MakeDate (MakeDay yr month date) (MakeTime 0 0 0 0))

/-- `d.setHours(hour, min, sec, ms)`: the same local calendar day at the given time. -/
def setHours (tz : Zone) (d hour min sec ms : Int) : Int :=
  UTC tz (MakeDate (Day (LocalTime tz d)) (MakeTime hour min sec ms))

/-- A time window `{ start, end }`, both ends inclusive (the field `end` is `end_`). -/
structure TimeWindow where
  start : Int
  end_ : Int
  deriving DecidableEq, Repr

/-- `getWeekRangeForDate(date)`. -/
def getWeekRangeForDate (tz : Zone) (date : Int) : TimeWindow :=
  let d := date
  let day := getDay tz d
  let offset := (day + 6) % 7
  let start := newDate tz (getFullYear tz d) (getMonth tz d) (getDate tz d - offset)
  let start := setHours tz start 0 0 0 0
  let end_ := start + 7 * 24 * 60 * 60 * 1000 - 1
  { start := start, end_ := end_ }

/-- The local time value of the midnight that opens the week of `date`: 00:00:00.000 of the
calendar day `(weekday + 6) mod 7` days before the calendar day of `date`. -/
def weekStartLocal (tz : Zone) (date : Int) : Int :=
  MakeDate (Day (LocalTime tz date) - (getDay tz date + 6) % 7) (MakeTime 0 0 0 0)

/-- The local time value `t` exists in the zone: read as an instant and shown as local time
again it is `t` (no clock change skips it). -/
def localTimeExists (tz : Zone) (t : Int) : Prop := LocalTime tz (UTC tz t) = t

/-- `TimeClip(t)`: `NaN` (`none`) for a time value beyond 8.64e15 ms in size. -/
def TimeClip (t : Int) : Option Int :=
  if -8640000000000000 ≤ t ∧ t ≤ 8640000000000000 then some t else none

/-- The time value lies in the range of `Date`, from -8.64e15 to 8.64e15 ms, where
`TimeClip` leaves it unchanged (outside it `TimeClip` gives `NaN`). -/
def validTime (t : Int) : Prop := -8640000000000000 ≤ t ∧ t ≤ 8640000000000000

/-- Tehran around the start of daylight saving in 2021: UTC+3:30 up to 2021-03-21T20:30Z,
which is Monday 2021-03-22T00:00 local time, UTC+4:30 from then on, so that the local times
from 00:00 to 01:00 of that Monday do not exist; a local time that does not exist is read
with the offset before the change. -/
def tehran2021 : Zone :=
  { offsetAt := fun t => if t < 1616358600000 then 12600000 else 16200000,
    offsetOfLocal := fun t => if t < 1616374800000 then 12600000 else 16200000 }

/-- New York around the end of daylight saving in 2026: UTC-4 up to 2026-11-01T06:00Z
(02:00 local), UTC-5 from then on; a local time that occurs twice is read with the offset
before the change. -/
def newYork2026 : Zone :=
  { offsetAt := fun t => if t < 1793512800000 then -14400000 else -18000000,
    offsetOfLocal := fun t => if t < 1793498400000 then -14400000 else -18000000 }

/-! ### The store -/

/-- A habit `{ id, name, goalHours, sessions, activeStart }`; `activeStart` is `null` or the
instant at which the running session began. -/
structure Habit where
  id : String
  name : String
  goalHours : ℚ
  sessions : List Session
  activeStart : Option Int
  deriving DecidableEq, Repr

/-- The store `state = { habits: [...] }`. -/
structure State where
  habits : List Habit
  deriving DecidableEq, Repr

/-- JavaScript truthiness of a value that is `null` or a number: `null` and `0` are falsy. -/
def truthy (x : Option Int) : Bool :=
  match x with
  | none => false
  | some t => decide (t ≠ 0)

/-- `state.habits.find(x => x.id === id)`. -/
def findHabit (state : State) (id : String) : Option Habit :=
  state.habits.find? (fun x => x.id == id)

/-- The in-place update of the habit object returned by `find`: the first habit with the
given id is replaced by its image under `f`. -/
def updateHabit (id : String) (f : Habit → Habit) : List Habit → List Habit
  | [] => []
  | h :: t => if h.id == id then f h :: t else h :: updateHabit id f t

/-- `createHabit(name, goalHours)`; `id` is the value drawn by `uid()` and `goalHours` the
value of `Number(goalHours) || 0`. -/
def createHabit (state : State) (id name : String) (goalHours : ℚ) : State :=
  { habits := state.habits ++
      [{ id := id, name := name, goalHours := goalHours, sessions := [], activeStart := none }] }

/-- `startHabit(id)`; `now` is the value of `Date.now()`. -/
def startHabit (state : State) (id : String) (now : Int) : State :=
  match findHabit state id with
  | none => state
  | some h =>
    if truthy h.activeStart then state
    else { habits := updateHabit id (fun h => { h with activeStart := some now }) state.habits }

/-- `stopHabit(id)`; `now` is the value of `Date.now()`. -/
def stopHabit (state : State) (id : String) (now : Int) : State :=
  match findHabit state id with
  | none => state
  | some h =>
    if !truthy h.activeStart then state
    else
      match h.activeStart with
      | none => state
      | some start =>
        let end_ := now
        let durationHours := ((end_ - start : Int) : ℚ) / (1000 * 60 * 60)
        { habits := updateHabit id
            (fun h => { h with
              sessions := h.sessions ++ [{ start := start, end_ := end_,
                                           durationHours := durationHours }],
              activeStart := none }) state.habits }

/-- `manualAddSession(id, startStr, endStr)`; `start` and `end_` are the values of
`new Date(startStr).getTime()` and `new Date(endStr).getTime()`, `none` for `NaN`. -/
def manualAddSession (state : State) (id : String) (start end_ : Option Int) : State :=
  match findHabit state id with
  | none => state
  | some _ =>
    match start, end_ with
    | some s, some e =>
      if !truthy (some s) || !truthy (some e) || decide (e ≤ s) then state
      else
        let durationHours := ((e - s : Int) : ℚ) / (1000 * 60 * 60)
        { habits := updateHabit id
            (fun h => { h with
              sessions := h.sessions ++ [{ start := s, end_ := e,
                                           durationHours := durationHours }] }) state.habits }
    | _, _ => state

/-- A call of one of the four mutating operations, with the values it reads from outside
(the random id, the clock, the parsed date strings). -/
inductive Op where
  | create (id name : String) (goalHours : ℚ)
  | start (id : String) (now : Int)
  | stop (id : String) (now : Int)
  | manualAdd (id : String) (start end_ : Option Int)
  deriving DecidableEq, Repr

/-- One call applied to the store. -/
def step (state : State) : Op → State
  | Op.create id name goalHours => createHabit state id name goalHours
  | Op.start id now => startHabit state id now
  | Op.stop id now => stopHabit state id now
  | Op.manualAdd id start end_ => manualAddSession state id start end_

/-- A sequence of calls applied from left to right. -/
def run (state : State) (ops : List Op) : State := ops.foldl step state

/-- The clock readings of a sequence of calls, in call order. -/
def clockReadings : List Op → List Int
  | [] => []
  | Op.start _ now :: ops => now :: clockReadings ops
  | Op.stop _ now :: ops => now :: clockReadings ops
  | _ :: ops => clockReadings ops

/-- The clock never goes backwards over the sequence of calls. -/
def clockMonotone (ops : List Op) : Prop := (clockReadings ops).Chain' (· ≤ ·)

/-- The empty store `{ habits: [] }`. -/
def emptyState : State := { habits := [] }

/-! ### Loops -/

/-- The loop `for (let i = lo; i < hi; i++) acc.push(f(i))`. -/
def forUp {α : Type} (f : Int → α) (hi : Int) (i : Int) (acc : List α) : List α :=
  if i < hi then forUp f hi (i + 1) (acc ++ [f i]) else acc
termination_by (hi - i).toNat
decreasing_by omega

/-- The loop `for (let i = hi; i >= 0; i--) acc.push(f(i))`. -/
def forDown {α : Type} (f : Int → α) (i : Int) (acc : List α) : List α :=
  if 0 ≤ i then forDown f (i - 1) (acc ++ [f i]) else acc
termination_by (i + 1).toNat
decreasing_by omega

/-- The loop `for (let i = lo; i < hi; i++) acc.push(f(i))` with a body that may throw
(`none`): the first throw ends the loop. -/
def forUpM {α : Type} (f : Int → Option α) (hi : Int) (i : Int) (acc : List α) :
    Option (List α) :=
  if i < hi then
    match f i with
    | none => none
    | some x => forUpM f hi (i + 1) (acc ++ [x])
  else some acc
termination_by (hi - i).toNat
decreasing_by omega

/-- Array read `arr[i]`: `undefined` (`none`) outside `0 .. length - 1`. -/
def arrayGet {α : Type} (arr : List α) (i : Int) : Option α :=
  if i < 0 then none else arr[i.toNat]?

/-! ### Weekly chart -/

/-- `Math.round(x * 100) / 100`, with `Math.round(y) = floor(y + 1/2)`. -/
def round2 (x : ℚ) : ℚ := ((⌊x * 100 + 1 / 2⌋ : Int) : ℚ) / 100

/-- `formatWeekLabel(date)`: "M/D–M/D" of the first and the seventh day. -/
def formatWeekLabel (tz : Zone) (date : Int) : String :=
  let d := date
  let end_ := d + 6 * 24 * 60 * 60 * 1000
  let s := toString (getMonth tz d + 1) ++ "/" ++ toString (getDate tz d)
  let e := toString (getMonth tz end_ + 1) ++ "/" ++ toString (getDate tz end_)
  s ++ "–" ++ e

/-- One bar of the weekly chart: the window of the loop body with the label pushed to
`labels` and the value pushed to `data`. -/
structure WeekBar where
  start : Int
  end_ : Int
  label : String
  value : ℚ
  deriving DecidableEq, Repr

/-- The body of the loop of `renderStatsChart` for loop index `i`. -/
def weekBar (tz : Zone) (habit : Habit) (curMonday : Int) (i : Int) : WeekBar :=
  let start := curMonday - i * 7 * 24 * 60 * 60 * 1000
  let end_ := start + 7 * 24 * 60 * 60 * 1000 - 1
  let sum := sessionsInRange habit.sessions start end_
  { start := start, end_ := end_, label := formatWeekLabel tz start, value := round2 sum }

/-- The weekly series of `renderStatsChart`: `labels` and `data` after the loop
`for (let i = weeks-1; i >= 0; i--)`, entry by entry; `now` is `new Date()`. -/
def weeklySeries (tz : Zone) (habit : Habit) (now : Int) (weeks : Int) : List WeekBar :=
  let curMonday := (getWeekRangeForDate tz now).start
  forDown (weekBar tz habit curMonday) (weeks - 1) []

/-- `renderStatsChart(habitId, weeks)`: `none` when the chart is cleared (no habit id or no
such habit), otherwise the series handed to the chart. -/
def renderStatsChart (tz : Zone) (state : State) (habitId : Option String) (now weeks : Int) :
    Option (List WeekBar) :=
  match habitId with
  | none => none
  | some id =>
    if id = "" then none
    else
      match findHabit state id with
      | none => none
      | some habit => some (weeklySeries tz habit now weeks)

/-! ### Heatmap -/

/-- An entry `{ date, hours }` of `dailyTotals`. -/
structure DayTotal where
  date : Int
  hours : ℚ
  deriving DecidableEq, Repr

/-- A cell of the heatmap: the day, its hours and its class `c0` .. `c4`. -/
structure HeatCell where
  date : Int
  hours : ℚ
  cls : String
  deriving DecidableEq, Repr

/-- The first day of the grid: `startDay` after `setHours(0,0,0,0)`. -/
def heatmapStartDay (tz : Zone) (now weeks : Int) : Int :=
  let lastMonday := (getWeekRangeForDate tz now).start
  let startDay := lastMonday - (weeks - 1) * 7 * 24 * 60 * 60 * 1000
  setHours tz startDay 0 0 0 0

/-- The body of the first loop of `renderHeatmap` for day index `i`. -/
def dayTotal (habit : Habit) (startDay : Int) (i : Int) : DayTotal :=
  let dStart := startDay + i * 24 * 60 * 60 * 1000
  let dEnd := dStart + 24 * 60 * 60 * 1000 - 1
  let hours := sessionsInRange habit.sessions dStart dEnd
  { date := dStart, hours := round2 hours }

/-- `dailyTotals` after the loop `for (let i=0;i<totalDays;i++)`. -/
def dailyTotals (tz : Zone) (habit : Habit) (now weeks : Int) : List DayTotal :=
  let totalDays := weeks * 7
  forUp (dayTotal habit (heatmapStartDay tz now weeks)) totalDays 0 []

/-- `values`: the hours of `dailyTotals`, sorted ascending. -/
def sortedValues (totals : List DayTotal) : List ℚ :=
  (totals.map (fun d => d.hours)).insertionSort (· ≤ ·)

/-- The percentile function `q(p)` of `renderHeatmap` over the sorted `values`. -/
def q (values : List ℚ) (p : ℚ) : Option ℚ :=
  if values.length = 0 then some 0
  else
    let idx : Int := ⌊p * (((values.length : Int) : ℚ) - 1)⌋
    arrayGet values idx

/-- `thresholds = [q(0.2), q(0.4), q(0.6), q(0.8)]`. -/
def thresholds (values : List ℚ) : List (Option ℚ) :=
  [q values (2 / 10), q values (4 / 10), q values (6 / 10), q values (8 / 10)]

/-- The comparison `h > t` where `t` may be `undefined` (`none`), which compares false. -/
def jsGt (h : ℚ) (t : Option ℚ) : Bool :=
  match t with
  | none => false
  | some x => decide (h > x)

/-- The class cascade of `renderHeatmap`. -/
def heatClass (thresholds : List (Option ℚ)) (h : ℚ) : String :=
  if jsGt h (thresholds.getD 3 none) then "c4"
  else if jsGt h (thresholds.getD 2 none) then "c3"
  else if jsGt h (thresholds.getD 1 none) then "c2"
  else if jsGt h (thresholds.getD 0 none) then "c1"
  else "c0"

/-- The body of the inner loop of `renderHeatmap` for row `w` and column `d`: `none` when
`dailyTotals[idx]` is `undefined`, where reading `cellData.hours` throws. -/
def heatCell (totals : List DayTotal) (thresholds : List (Option ℚ)) (w d : Int) :
    Option HeatCell :=
  let idx := w * 7 + d
  match arrayGet totals idx with
  | none => none
  | some cellData =>
    let h := cellData.hours
    some { date := cellData.date, hours := h, cls := heatClass thresholds h }

/-- The body of the outer loop of `renderHeatmap`: one row of seven cells. -/
def heatRow (totals : List DayTotal) (thresholds : List (Option ℚ)) (w : Int) :
    Option (List HeatCell) :=
  forUpM (heatCell totals thresholds w) 7 0 []

/-- The rows appended to the container by `renderHeatmap` for an existing habit; `none`
when the function throws. -/
def heatmapGrid (tz : Zone) (habit : Habit) (now weeks : Int) : Option (List (List HeatCell)) :=
  let totals := dailyTotals tz habit now weeks
  let values := sortedValues totals
  forUpM (heatRow totals (thresholds values)) weeks 0 []

/-- `renderHeatmap(habitId, weeks)`: the rows of the container (none for an unknown
habit); `none` when the function throws. -/
def renderHeatmap (tz : Zone) (state : State) (habitId : String) (now weeks : Int) :
    Option (List (List HeatCell)) :=
  match findHabit state habitId with
  | none => some []
  | some habit => heatmapGrid tz habit now weeks

/-- The cell of row `w`, column `d` of the grid: day `w*7 + d` of `dailyTotals` with the
class the cascade gives its hours. -/
def gridCell (tz : Zone) (habit : Habit) (now weeks w d : Int) : HeatCell :=
  let cellData := dayTotal habit (heatmapStartDay tz now weeks) (w * 7 + d)
  { date := cellData.date, hours := cellData.hours,
    cls := heatClass (thresholds (sortedValues (dailyTotals tz habit now weeks))) cellData.hours }

/-- The bin number of a cell class: class `ck` is bin `k`. -/
def binOfClass (cls : String) : Nat :=
  if cls = "c4" then 4
  else if cls = "c3" then 3
  else if cls = "c2" then 2
  else if cls = "c1" then 1
  else 0

/-- The number of thresholds strictly below `h`. -/
def thresholdsBelow (thresholds : List (Option ℚ)) (h : ℚ) : Nat :=
  (thresholds.filter (fun t => jsGt h t)).length

/-! ### Session filter -/

/-- The global `filters`: `from_` and `to_` are the time values of `new Date(filters.from)`
and `new Date(filters.to)` (`none` when the field is `null` or empty), `minHours` the value
of `Number(filters.minHours)` (`none` when the field is `0` or empty). -/
structure Filters where
  from_ : Option Int
  to_ : Option Int
  minHours : Option ℚ
  deriving DecidableEq, Repr

/-- The predicate of the `.filter` callback of `applyFiltersToSessions`. -/
def passesFilters (from_ to_ : Option Int) (minH : ℚ) (s : Session) : Bool :=
  let okDate :=
    (!truthy from_ || (match from_ with | some f => decide (s.start ≥ f) | none => false)) &&
    (!truthy to_ || (match to_ with | some t => decide (s.start ≤ t) | none => false))
  let okMin := (decide (minH = 0) || decide (s.durationHours ≥ minH))
  okDate && okMin

/-- `applyFiltersToSessions(sessions)` under the global `filters`. -/
def applyFiltersToSessions (tz : Zone) (filters : Filters) (sessions : List Session) :
    List Session :=
  let from_ : Option Int :=
    match filters.from_ with
    | some f => some (setHours tz f 0 0 0 0)
    | none => none
  let to_ : Option Int :=
    match filters.to_ with
    | some t => some (setHours tz t 23 59 59 999)
    | none => none
  let minH : ℚ :=
    match filters.minHours with
    | some m => m
    | none => 0
  sessions.filter (passesFilters from_ to_ minH)

/-- The session filter as the specification words it: a session passes when (`from` is
absent or `start >= startOfDay(from)`) and (`to` is absent or `start <= endOfDay(to)`) and
(`minHours` is absent or zero or `durationHours >= minHours`). -/
def filterSessionsSpec (tz : Zone) (filters : Filters) (sessions : List Session) :
    List Session :=
  sessions.filter (fun s =>
    (match filters.from_ with
      | none => true
      | some f => decide (s.start ≥ setHours tz f 0 0 0 0)) &&
    (match filters.to_ with
      | none => true
      | some t => decide (s.start ≤ setHours tz t 23 59 59 999)) &&
    (match filters.minHours with
      | none => true
      | some m => decide (m = 0) || decide (s.durationHours ≥ m)))

/-- The session invariant without strictness: `end >= start` and `durationHours` is the
length in hours. -/
def sessionOk (s : Session) : Prop :=
  s.start ≤ s.end_ ∧ s.durationHours = ((s.end_ - s.start : Int) : ℚ) / 3600000

/-- Every session of every habit satisfies `sessionOk`, and no running session began after
clock reading `c`. -/
def storeOk (c : Int) (state : State) : Prop :=
  ∀ h ∈ state.habits, (∀ s ∈ h.sessions, sessionOk s) ∧ ∀ t, h.activeStart = some t → t ≤ c

/-- No habit of the store has its `activeStart` at the instant 0. -/
def activeNonzero (state : State) : Prop :=
  ∀ h ∈ state.habits, ∀ t, h.activeStart = some t → t ≠ 0

/-! ## The range aggregator -/

theorem foldl_add_eq_sum (l : List ℚ) (a : ℚ) :
    l.foldl (fun a b => a + b) a = a + l.sum := by
  induction l generalizing a with
  | nil => simp
  | cons x xs ih => simp [List.foldl_cons, ih, add_assoc]

theorem sessionsInRange_nil (a b : Int) : sessionsInRange [] a b = 0 := by
  simp [sessionsInRange]

theorem sessionsInRange_cons (s : Session) (l : List Session) (a b : Int) :
    sessionsInRange (s :: l) a b = contribution a b s + sessionsInRange l a b := by
  unfold sessionsInRange contribution
  rw [foldl_add_eq_sum, foldl_add_eq_sum]
  by_cases h : overlaps a b s = true
  · simp [List.filter_cons, h]
  · simp [List.filter_cons, h]

theorem sessionsInRange_append (A B : List Session) (a b : Int) :
    sessionsInRange (A ++ B) a b = sessionsInRange A a b + sessionsInRange B a b := by
  induction A with
  | nil => simp [sessionsInRange_nil]
  | cons s l ih => simp [sessionsInRange_cons, ih, add_assoc]

theorem straddling_cons (s : Session) (l : List Session) (m : Int) :
    (straddling (s :: l) m : ℚ) =
      (if s.start ≤ m - 1 ∧ s.end_ ≥ m then 1 else 0) + (straddling l m : ℚ) := by
  unfold straddling
  by_cases h : s.start ≤ m - 1 ∧ s.end_ ≥ m
  · have h1 := h.1
    have h2 := h.2
    simp [List.filter_cons, h1, h2]
    ring
  · have : (decide (s.start ≤ m - 1) && decide (s.end_ ≥ m)) = false := by
      simpa using h
    simp only [List.filter_cons, this, if_neg h]
    simp

/-- One session: the two parts of a split window miss exactly the millisecond between
`m - 1` and `m` when the session runs across the cut. -/
theorem contribution_split (s : Session) (a m b : Int) (hs : s.start ≤ s.end_)
    (ham : a < m) (hmb : m ≤ b) :
    contribution a (m - 1) s + contribution m b s
      + (if s.start ≤ m - 1 ∧ s.end_ ≥ m then 1 else 0) / 3600000
      = contribution a b s := by
  unfold contribution overlaps clippedHours
  by_cases h1 : s.start ≤ m - 1
  · by_cases h2 : s.end_ ≥ m
    · have e1 : s.start ≤ b := by omega
      have e2 : s.end_ ≥ a := by omega
      have e3 : min s.end_ (m - 1) = m - 1 := by omega
      have e4 : max s.start m = m := by omega
      simp only [h1, h2, e1, e2, e3, e4, decide_True, Bool.and_self, if_true, and_self]
      push_cast
      ring
    · have e1 : s.start ≤ b := by omega
      have e3 : min s.end_ (m - 1) = s.end_ := by omega
      have e4 : min s.end_ b = s.end_ := by omega
      simp only [h1, h2, e1, e3, e4, decide_True, decide_False, Bool.and_false, Bool.true_and,
        and_false, if_false]
      simp
  · have h2 : s.end_ ≥ m := by omega
    have e2 : s.end_ ≥ a := by omega
    have e3 : max s.start m = s.start := by omega
    have e4 : max s.start a = s.start := by omega
    simp only [h1, h2, e2, e3, e4, decide_True, decide_False, Bool.false_and, Bool.and_true,
      false_and, if_false]
    simp

theorem sessionsInRange_eq_sum_contribution (l : List Session) (a b : Int) :
    sessionsInRange l a b = (l.map (contribution a b)).sum := by
  induction l with
  | nil => simp [sessionsInRange_nil]
  | cons s l ih => simp [sessionsInRange_cons, ih]

/-- A single session that lies inside the window counts with its own length. -/
theorem sessionsInRange_single_inside (s : Session) (a b : Int)
    (h1 : a ≤ s.start) (h2 : s.start ≤ s.end_) (h3 : s.end_ ≤ b) :
    sessionsInRange [s] a b = ((s.end_ - s.start : Int) : ℚ) / 3600000 := by
  have e1 : s.start ≤ b := by omega
  have e2 : s.end_ ≥ a := by omega
  have e3 : max s.start a = s.start := by omega
  have e4 : min s.end_ b = s.end_ := by omega
  rw [sessionsInRange_cons, sessionsInRange_nil]
  simp only [contribution, overlaps, clippedHours, e1, e2, e3, e4, decide_True, Bool.and_self,
    if_true]
  norm_num

/-- C1 (as amended): in exact arithmetic, for sessions with `end >= start` and a window
`[a, b]` cut into `[a, m-1]` and `[m, b]` with `a < m <= b`, the two parts add up to the
whole window less one millisecond (1/3600000 h) for every session that runs across the cut,
that is, with `start <= m-1` and `end >= m`. -/
theorem sessionsInRange_split (sessions : List Session) (a m b : Int)
    (hs : ∀ s ∈ sessions, s.start ≤ s.end_) (ham : a < m) (hmb : m ≤ b) :
    sessionsInRange sessions a (m - 1) + sessionsInRange sessions m b
      + (straddling sessions m : ℚ) / 3600000
      = sessionsInRange sessions a b := by
  induction sessions with
  | nil => simp [sessionsInRange_nil, straddling]
  | cons s l ih =>
    have hl : ∀ x ∈ l, x.start ≤ x.end_ := fun x hx => hs x (List.mem_cons_of_mem _ hx)
    have h1 := contribution_split s a m b (hs s (List.mem_cons_self _ _)) ham hmb
    have h2 := ih hl
    rw [sessionsInRange_cons, sessionsInRange_cons, sessionsInRange_cons, straddling_cons]
    rw [← h1, ← h2]
    ring

/-- Witness for C1 (amended): one ten-millisecond session cut at `m = 5`. -/
theorem sessionsInRange_split_witness :
    (∀ s ∈ [(⟨0, 10, 10 / 3600000⟩ : Session)], s.start ≤ s.end_) ∧ (0 : Int) < 5 ∧
      (5 : Int) ≤ 10 ∧
      sessionsInRange [(⟨0, 10, 10 / 3600000⟩ : Session)] 0 (5 - 1)
        + sessionsInRange [(⟨0, 10, 10 / 3600000⟩ : Session)] 5 10
        + (straddling [(⟨0, 10, 10 / 3600000⟩ : Session)] 5 : ℚ) / 3600000
        = sessionsInRange [(⟨0, 10, 10 / 3600000⟩ : Session)] 0 10 :=
  ⟨by simp, by decide, by decide,
    sessionsInRange_split [(⟨0, 10, 10 / 3600000⟩ : Session)] 0 5 10 (by simp) (by decide)
      (by decide)⟩

set_option maxRecDepth 4096 in
/-- The session 0..10 ms on doubles: 4 ms, 5 ms and 10 ms in hours. -/
theorem sessionsInRangeDouble_split_example :
    sessionsInRangeDouble [(⟨0, 10, 10 / 3600000⟩ : Session)] 0 (5 - 1)
      = ⟨5247073869855161, -72⟩ ∧
    sessionsInRangeDouble [(⟨0, 10, 10 / 3600000⟩ : Session)] 5 10
      = ⟨819855292164869, -69⟩ ∧
    sessionsInRangeDouble [(⟨0, 10, 10 / 3600000⟩ : Session)] 0 10
      = ⟨819855292164869, -68⟩ := by
  refine ⟨by decide, by decide, by decide⟩

/-- C1 (as stated) fails: the session 0..10 ms over the window [0, 10] cut into [0, 4] and
[5, 10] gives 4 ms + 5 ms in the parts and 10 ms in the whole, in exact arithmetic and on
doubles alike. -/
theorem sessionsInRange_split_counterexample :
    (∀ s ∈ [(⟨0, 10, 10 / 3600000⟩ : Session)], s.start ≤ s.end_) ∧ (0 : Int) < 5 ∧
      (5 : Int) ≤ 10 ∧
      sessionsInRange [(⟨0, 10, 10 / 3600000⟩ : Session)] 0 (5 - 1) = 4 / 3600000 ∧
      sessionsInRange [(⟨0, 10, 10 / 3600000⟩ : Session)] 5 10 = 5 / 3600000 ∧
      sessionsInRange [(⟨0, 10, 10 / 3600000⟩ : Session)] 0 10 = 10 / 3600000 ∧
      sessionsInRange [(⟨0, 10, 10 / 3600000⟩ : Session)] 0 (5 - 1)
        + sessionsInRange [(⟨0, 10, 10 / 3600000⟩ : Session)] 5 10
        ≠ sessionsInRange [(⟨0, 10, 10 / 3600000⟩ : Session)] 0 10 ∧
      Dbl.add (sessionsInRangeDouble [(⟨0, 10, 10 / 3600000⟩ : Session)] 0 (5 - 1))
          (sessionsInRangeDouble [(⟨0, 10, 10 / 3600000⟩ : Session)] 5 10)
        ≠ sessionsInRangeDouble [(⟨0, 10, 10 / 3600000⟩ : Session)] 0 10 := by
  refine ⟨by simp, by decide, by decide, ?_, ?_, ?_, ?_, ?_⟩
  · norm_num [sessionsInRange, overlaps, clippedHours]
  · norm_num [sessionsInRange, overlaps, clippedHours]
  · norm_num [sessionsInRange, overlaps, clippedHours]
  · norm_num [sessionsInRange, overlaps, clippedHours]
  · rw [sessionsInRangeDouble_split_example.1, sessionsInRangeDouble_split_example.2.1,
      sessionsInRangeDouble_split_example.2.2]
    decide

/-- C2: when every session lies inside the window (`rangeStart <= start <= end <= rangeEnd`),
`sessionsInRange` is the sum of the sessions' own lengths `(end - start) / 3600000`. -/
theorem sessionsInRange_contained (sessions : List Session) (rangeStart rangeEnd : Int)
    (h : ∀ s ∈ sessions, rangeStart ≤ s.start ∧ s.start ≤ s.end_ ∧ s.end_ ≤ rangeEnd) :
    sessionsInRange sessions rangeStart rangeEnd
      = (sessions.map (fun s => ((s.end_ - s.start : Int) : ℚ) / 3600000)).sum := by
  induction sessions with
  | nil => simp [sessionsInRange_nil]
  | cons s l ih =>
    have hl := ih (fun x hx => h x (List.mem_cons_of_mem _ hx))
    obtain ⟨h1, h2, h3⟩ := h s (List.mem_cons_self _ _)
    have e1 : s.start ≤ rangeEnd := by omega
    have e2 : s.end_ ≥ rangeStart := by omega
    have e3 : max s.start rangeStart = s.start := by omega
    have e4 : min s.end_ rangeEnd = s.end_ := by omega
    rw [sessionsInRange_cons, hl]
    simp only [contribution, overlaps, clippedHours, e1, e2, e3, e4, decide_True, Bool.and_self,
      if_true, List.map_cons, List.sum_cons]
    norm_num

/-- Witness for C2: two sessions inside the window [0, 7200000]. -/
theorem sessionsInRange_contained_witness :
    (∀ s ∈ [(⟨0, 3600000, 1⟩ : Session), ⟨1800000, 7200000, 3 / 2⟩],
        (0 : Int) ≤ s.start ∧ s.start ≤ s.end_ ∧ s.end_ ≤ 7200000) ∧
      sessionsInRange [(⟨0, 3600000, 1⟩ : Session), ⟨1800000, 7200000, 3 / 2⟩] 0 7200000
        = ([(⟨0, 3600000, 1⟩ : Session), ⟨1800000, 7200000, 3 / 2⟩].map
            (fun s => ((s.end_ - s.start : Int) : ℚ) / 3600000)).sum :=
  ⟨by simp, sessionsInRange_contained _ 0 7200000 (by simp)⟩

/-- Known doubles: 1/10 is `0x3FB999999999999A`, 0.1 + 0.2 is 0.30000000000000004
(`0x3FD3333333333334`), 2^53 + 1 rounds to the even neighbour 2^53 and 2^53 + 3 to
2^53 + 4. -/
theorem double_examples :
    Dbl.div (Dbl.ofInt 1) (Dbl.ofInt 10) = ⟨3602879701896397, -55⟩ ∧
    (7205759403792794 : Int) = 2 * 3602879701896397 ∧
    Dbl.add (Dbl.div (Dbl.ofInt 1) (Dbl.ofInt 10)) (Dbl.div (Dbl.ofInt 2) (Dbl.ofInt 10))
      = ⟨1351079888211149, -52⟩ ∧
    (5404319552844596 : Int) = 4 * 1351079888211149 ∧
    Dbl.ofInt 9007199254740993 = ⟨1, 53⟩ ∧
    Dbl.ofInt 9007199254740995 = ⟨2251799813685249, 2⟩ ∧
    Dbl.ofInt 3600000 = ⟨28125, 7⟩ := by
  refine ⟨by decide, by decide, by decide, by decide, by decide, by decide, by decide⟩

/-- With `D` the start of a day, the sessions 09:00-11:00 and 10:00-10:30 of that day give
2 and 1/2 hours on their own and 5/2 hours together over the day window. -/
theorem sessionsInRange_overlap_example (D : Int) :
    sessionsInRange [⟨D + 9 * 3600000, D + 11 * 3600000, 2⟩] D (D + 24*60*60*1000 - 1) = 2 ∧
    sessionsInRange [⟨D + 10 * 3600000, D + 10 * 3600000 + 1800000, 1 / 2⟩] D
      (D + 24*60*60*1000 - 1) = 1 / 2 ∧
    sessionsInRange [⟨D + 9 * 3600000, D + 11 * 3600000, 2⟩,
        ⟨D + 10 * 3600000, D + 10 * 3600000 + 1800000, 1 / 2⟩] D (D + 24*60*60*1000 - 1)
      = 5 / 2 := by
  have key : ∀ x y : Int, 0 ≤ x → x ≤ y → y ≤ 24*60*60*1000 - 1 → ∀ q : ℚ,
      sessionsInRange [⟨D + x, D + y, q⟩] D (D + 24*60*60*1000 - 1)
        = ((y - x : Int) : ℚ) / 3600000 := by
    intro x y hx hxy hy q
    rw [sessionsInRange_single_inside _ _ _ (by simp only; omega) (by simp only; omega)
      (by simp only; omega)]
    simp
  have h1 := key (9 * 3600000) (11 * 3600000) (by norm_num) (by norm_num) (by norm_num) 2
  have h2 := key (10 * 3600000) (10 * 3600000 + 1800000) (by norm_num) (by norm_num)
    (by norm_num) (1 / 2)
  have e1 : (((11 * 3600000 - 9 * 3600000 : Int)) : ℚ) / 3600000 = 2 := by norm_num
  have e2 : (((10 * 3600000 + 1800000 - 10 * 3600000 : Int)) : ℚ) / 3600000 = 1 / 2 := by
    norm_num
  rw [e1] at h1
  rw [e2] at h2
  have h2x : sessionsInRange [⟨D + 10 * 3600000, D + 10 * 3600000 + 1800000, 1 / 2⟩] D
      (D + 24*60*60*1000 - 1) = 1 / 2 := by
    have := h2
    rwa [← add_assoc] at this
  refine ⟨h1, h2x, ?_⟩
  have := sessionsInRange_append [⟨D + 9 * 3600000, D + 11 * 3600000, 2⟩]
    [⟨D + 10 * 3600000, D + 10 * 3600000 + 1800000, 1 / 2⟩] D (D + 24*60*60*1000 - 1)
  rw [List.singleton_append] at this
  rw [this, h1, h2x]
  norm_num

/-- On doubles the `reduce` over `A ++ B` goes on from the sum over `A`. -/
theorem sessionsInRangeDouble_append (A B : List Session) (s e : Int) :
    sessionsInRangeDouble (A ++ B) s e
      = ((B.filter (overlaps s e)).map (clippedHoursDouble s e)).foldl Dbl.add
          (sessionsInRangeDouble A s e) := by
  unfold sessionsInRangeDouble
  rw [List.filter_append, List.map_append, List.foldl_append]

/-- C3 (as amended): `sessionsInRange` performs no de-duplication or merge. In exact
arithmetic it is additive over list concatenation, `sessionsInRange (A ++ B)` being
`sessionsInRange A + sessionsInRange B`, so sessions that overlap each other are each
counted in full; on doubles the `reduce` over `A ++ B` goes on from the sum over `A`, adding
every clipped length of `B` in full. The sessions 09:00-11:00 and 10:00-10:30 of a day give
2 + 1/2 = 5/2 hours over the day window, in exact arithmetic for every day start `D` and on
doubles for Monday 2026-11-02 (`D = 1793577600000`), where 5/2 is the double `5 * 2^-1`. -/
theorem sessionsInRange_no_dedup :
    (∀ (A B : List Session) (s e : Int),
        sessionsInRange (A ++ B) s e = sessionsInRange A s e + sessionsInRange B s e) ∧
    (∀ D : Int,
        sessionsInRange [⟨D + 9 * 3600000, D + 11 * 3600000, 2⟩] D (D + 24*60*60*1000 - 1) = 2 ∧
        sessionsInRange [⟨D + 10 * 3600000, D + 10 * 3600000 + 1800000, 1 / 2⟩] D
          (D + 24*60*60*1000 - 1) = 1 / 2 ∧
        sessionsInRange [⟨D + 9 * 3600000, D + 11 * 3600000, 2⟩,
            ⟨D + 10 * 3600000, D + 10 * 3600000 + 1800000, 1 / 2⟩] D (D + 24*60*60*1000 - 1)
          = 5 / 2) ∧
    (∀ (A B : List Session) (s e : Int),
        sessionsInRangeDouble (A ++ B) s e
          = ((B.filter (overlaps s e)).map (clippedHoursDouble s e)).foldl Dbl.add
              (sessionsInRangeDouble A s e)) ∧
    (sessionsInRangeDouble [⟨1793610000000, 1793617200000, 2⟩] 1793577600000 1793663999999
        = ⟨1, 1⟩ ∧
      sessionsInRangeDouble [⟨1793613600000, 1793615400000, 1 / 2⟩] 1793577600000
        1793663999999 = ⟨1, -1⟩ ∧
      sessionsInRangeDouble [⟨1793610000000, 1793617200000, 2⟩,
        ⟨1793613600000, 1793615400000, 1 / 2⟩] 1793577600000 1793663999999 = ⟨5, -1⟩ ∧
      Dbl.toRat ⟨5, -1⟩ = 5 / 2) := by
  refine ⟨sessionsInRange_append, sessionsInRange_overlap_example,
    sessionsInRangeDouble_append, by decide, by decide, by decide, ?_⟩
  norm_num [Dbl.toRat]

/-- C3 (as stated) fails on the doubles of the code: with `A` one session of 6 minutes and
`B` two sessions of 12 and 18 minutes, all inside the window, the `reduce` over `A ++ B`
gives `(0.1 + 0.2) + 0.3 = 0.6000000000000001`, while `sessionsInRange A + sessionsInRange B`
is `0.1 + 0.5 = 0.6`. -/
theorem sessionsInRange_no_dedup_counterexample :
    sessionsInRangeDouble [⟨0, 360000, 1 / 10⟩] 0 86399999 = ⟨3602879701896397, -55⟩ ∧
    sessionsInRangeDouble [⟨0, 720000, 1 / 5⟩, ⟨0, 1080000, 3 / 10⟩] 0 86399999 = ⟨1, -1⟩ ∧
    sessionsInRangeDouble ([⟨0, 360000, 1 / 10⟩] ++ [⟨0, 720000, 1 / 5⟩, ⟨0, 1080000, 3 / 10⟩])
      0 86399999 = ⟨1351079888211149, -51⟩ ∧
    Dbl.add (sessionsInRangeDouble [⟨0, 360000, 1 / 10⟩] 0 86399999)
      (sessionsInRangeDouble [⟨0, 720000, 1 / 5⟩, ⟨0, 1080000, 3 / 10⟩] 0 86399999)
      = ⟨5404319552844595, -53⟩ ∧
    sessionsInRangeDouble ([⟨0, 360000, 1 / 10⟩] ++ [⟨0, 720000, 1 / 5⟩, ⟨0, 1080000, 3 / 10⟩])
      0 86399999
      ≠ Dbl.add (sessionsInRangeDouble [⟨0, 360000, 1 / 10⟩] 0 86399999)
          (sessionsInRangeDouble [⟨0, 720000, 1 / 5⟩, ⟨0, 1080000, 3 / 10⟩] 0 86399999) := by
  refine ⟨by decide, by decide, by decide, by decide, by decide⟩

/-! ## The week calendar -/

theorem DayFromYear_lower (d : Int) :
    DayFromYear (1970 + (d * 400) / 146097 - 1) ≤ d := by
  unfold DayFromYear
  omega

theorem DayFromYear_upper (d : Int) :
    d < DayFromYear (1970 + (d * 400) / 146097 + 2) := by
  unfold DayFromYear
  omega

/-- The year computed by `yearFromDay` is the one whose days contain `d`. -/
theorem yearFromDay_spec (d : Int) :
    DayFromYear (yearFromDay d) ≤ d ∧ d < DayFromYear (yearFromDay d + 1) := by
  have hl := DayFromYear_lower d
  have hu := DayFromYear_upper d
  unfold yearFromDay
  simp only []
  split_ifs with h1 h2
  · rw [sub_add_cancel]
    exact ⟨hl, by omega⟩
  · have e : 1970 + d * 400 / 146097 + 1 + 1 = 1970 + d * 400 / 146097 + 2 := by ring
    rw [e]
    exact ⟨h2, hu⟩
  · exact ⟨by omega, by omega⟩

theorem DayFromYear_succ (y : Int) : DayFromYear (y + 1) = DayFromYear y + DaysInYear y := by
  unfold DayFromYear DaysInYear
  split_ifs <;> omega

theorem DayFromYear_mono (y y' : Int) (h : y ≤ y') : DayFromYear y ≤ DayFromYear y' := by
  unfold DayFromYear
  omega

/-- `yearFromDay d` is the only year whose days contain `d`, hence the largest `y` with
`DayFromYear y <= d`, as `YearFromTime` is specified. -/
theorem yearFromDay_unique (d y : Int) (h1 : DayFromYear y ≤ d) (h2 : d < DayFromYear (y + 1)) :
    yearFromDay d = y := by
  obtain ⟨s1, s2⟩ := yearFromDay_spec d
  by_contra hne
  rcases lt_or_gt_of_ne hne with hlt | hgt
  · have := DayFromYear_mono (yearFromDay d + 1) y (by omega)
    omega
  · have := DayFromYear_mono (y + 1) (yearFromDay d) (by omega)
    omega

/-- The day that `MakeDay` takes for the first of month `mn` of year `ym` is the one the
standard asks for: its year is `ym`, its month `mn` and its day of the month 1. -/
theorem MakeDay_first_of_month (ym mn : Int) (h0 : 0 ≤ mn) (h11 : mn ≤ 11) :
    YearFromTime (MakeDate (MakeDay ym mn 1) 0) = ym ∧
    MonthFromTime (MakeDate (MakeDay ym mn 1) 0) = mn ∧
    DateFromTime (MakeDate (MakeDay ym mn 1) 0) = 1 := by
  have hd : Day (MakeDate (MakeDay ym mn 1) 0) = MakeDay ym mn 1 := by
    unfold Day MakeDate msPerDay
    omega
  have e1 : mn / 12 = 0 := by omega
  have e2 : mn % 12 = mn := by omega
  have hmk : MakeDay ym mn 1
      = DayFromYear ym + monthStartDay mn (if DaysInYear ym = 366 then 1 else 0) := by
    unfold MakeDay
    simp only [e1, e2, add_zero]
    ring
  have hleap : DaysInYear ym = 365 ∨ DaysInYear ym = 366 := by
    unfold DaysInYear
    split_ifs <;> simp
  have hms : 0 ≤ monthStartDay mn (if DaysInYear ym = 366 then 1 else 0) ∧
      monthStartDay mn (if DaysInYear ym = 366 then 1 else 0) < DaysInYear ym := by
    rcases hleap with hl | hl <;> rw [hl] <;> interval_cases mn <;>
      norm_num [monthStartDay]
  have hy : YearFromTime (MakeDate (MakeDay ym mn 1) 0) = ym := by
    unfold YearFromTime
    rw [hd, hmk]
    apply yearFromDay_unique
    · omega
    · rw [DayFromYear_succ]
      omega
  have hw : DayWithinYear (MakeDate (MakeDay ym mn 1) 0)
      = monthStartDay mn (if DaysInYear ym = 366 then 1 else 0) := by
    unfold DayWithinYear
    rw [hd, hy, hmk]
    ring
  have hl : InLeapYear (MakeDate (MakeDay ym mn 1) 0)
      = (if DaysInYear ym = 366 then 1 else 0) := by
    unfold InLeapYear
    rw [hy]
  have hm : MonthFromTime (MakeDate (MakeDay ym mn 1) 0) = mn := by
    unfold MonthFromTime
    rw [hw, hl]
    rcases hleap with hl | hl <;> rw [hl] <;> interval_cases mn <;>
      norm_num [monthStartDay, monthOfDay]
  refine ⟨hy, hm, ?_⟩
  unfold DateFromTime
  rw [hm, hw, hl]
  rcases hleap with hl | hl <;> rw [hl] <;> interval_cases mn <;>
    norm_num [monthStartDay, dateOfDay]

/-- The date fields of 2026-11-04T12:00:00Z (a Wednesday) and of 2000-02-29T00:00:00Z. -/
theorem date_fields_examples :
    (getFullYear utcZone 1793793600000, getMonth utcZone 1793793600000, getDate utcZone 1793793600000,
      getDay utcZone 1793793600000) = (2026, 10, 4, 3) ∧
    (getFullYear utcZone 951782400000, getMonth utcZone 951782400000, getDate utcZone 951782400000,
      getDay utcZone 951782400000) = (2000, 1, 29, 2) ∧
    getWeekRangeForDate utcZone 1793793600000 = ⟨1793577600000, 1794182399999⟩ := by
  refine ⟨by decide, by decide, by decide⟩

theorem monthOfDay_range (d leap : Int) : 0 ≤ monthOfDay d leap ∧ monthOfDay d leap ≤ 11 := by
  unfold monthOfDay
  by_cases h0 : d < 31
  · rw [if_pos h0]; omega
  rw [if_neg h0]
  by_cases h1 : d < 59 + leap
  · rw [if_pos h1]; omega
  rw [if_neg h1]
  by_cases h2 : d < 90 + leap
  · rw [if_pos h2]; omega
  rw [if_neg h2]
  by_cases h3 : d < 120 + leap
  · rw [if_pos h3]; omega
  rw [if_neg h3]
  by_cases h4 : d < 151 + leap
  · rw [if_pos h4]; omega
  rw [if_neg h4]
  by_cases h5 : d < 181 + leap
  · rw [if_pos h5]; omega
  rw [if_neg h5]
  by_cases h6 : d < 212 + leap
  · rw [if_pos h6]; omega
  rw [if_neg h6]
  by_cases h7 : d < 243 + leap
  · rw [if_pos h7]; omega
  rw [if_neg h7]
  by_cases h8 : d < 273 + leap
  · rw [if_pos h8]; omega
  rw [if_neg h8]
  by_cases h9 : d < 304 + leap
  · rw [if_pos h9]; omega
  rw [if_neg h9]
  by_cases h10 : d < 334 + leap
  · rw [if_pos h10]; omega
  rw [if_neg h10]
  omega

/-- The month table is consistent: first day of the month plus day of the month. -/
theorem monthStartDay_add_dateOfDay (d leap : Int) :
    monthStartDay (monthOfDay d leap) leap + dateOfDay (monthOfDay d leap) d leap - 1 = d := by
  have hr := monthOfDay_range d leap
  generalize monthOfDay d leap = m at hr
  obtain ⟨h0, h11⟩ := hr
  interval_cases m <;> norm_num [monthStartDay, dateOfDay] <;> ring

theorem MonthFromTime_range (t : Int) : 0 ≤ MonthFromTime t ∧ MonthFromTime t ≤ 11 :=
  monthOfDay_range _ _

theorem monthStartDay_add_date (t : Int) :
    monthStartDay (MonthFromTime t) (InLeapYear t) + DateFromTime t - 1 = DayWithinYear t :=
  monthStartDay_add_dateOfDay _ _

/-- Calendar round trip: the day `k` days before the calendar day of `t`. -/
theorem MakeDay_of_fields (t k : Int) :
    MakeDay (YearFromTime t) (MonthFromTime t) (DateFromTime t - k) = Day t - k := by
  have hr := MonthFromTime_range t
  have hm := monthStartDay_add_date t
  have h1 : MonthFromTime t / 12 = 0 := by omega
  have h2 : MonthFromTime t % 12 = MonthFromTime t := by omega
  unfold MakeDay
  simp only [h1, h2, add_zero]
  have h3 : (if DaysInYear (YearFromTime t) = 366 then (1 : Int) else 0) = InLeapYear t := rfl
  rw [h3]
  unfold DayWithinYear at hm
  omega

theorem Day_MakeDate_midnight (day : Int) : Day (MakeDate day (MakeTime 0 0 0 0)) = day := by
  unfold Day MakeDate MakeTime msPerDay
  omega

theorem newDate_of_fields (tz : Zone) (t k : Int)
    (hy : ¬ (0 ≤ getFullYear tz t ∧ getFullYear tz t ≤ 99)) :
    newDate tz (getFullYear tz t) (getMonth tz t) (getDate tz t - k)
      = UTC tz (MakeDate (Day (LocalTime tz t) - k) (MakeTime 0 0 0 0)) := by
  unfold newDate
  simp only [if_neg hy]
  unfold getFullYear getMonth getDate
  rw [MakeDay_of_fields]

theorem getWeekRangeForDate_start (tz : Zone) (date : Int)
    (hy : ¬ (0 ≤ getFullYear tz date ∧ getFullYear tz date ≤ 99))
    (hex : localTimeExists tz (weekStartLocal tz date)) :
    (getWeekRangeForDate tz date).start = UTC tz (weekStartLocal tz date) := by
  unfold getWeekRangeForDate
  simp only []
  rw [newDate_of_fields tz date _ hy]
  unfold setHours
  have h : LocalTime tz (UTC tz (MakeDate (Day (LocalTime tz date) - (getDay tz date + 6) % 7)
      (MakeTime 0 0 0 0))) = weekStartLocal tz date := hex
  rw [h]
  unfold weekStartLocal
  rw [Day_MakeDate_midnight]

theorem getWeekRangeForDate_end (tz : Zone) (date : Int) :
    (getWeekRangeForDate tz date).end_
      = (getWeekRangeForDate tz date).start + 7 * 24 * 60 * 60 * 1000 - 1 := rfl

/-- In a zone with a constant offset every local time exists. -/
theorem localTimeExists_fixedZone (offset t : Int) : localTimeExists (fixedZone offset) t := by
  unfold localTimeExists LocalTime UTC fixedZone
  simp

/-- C4 (as amended): for every reference date whose local calendar year is not one of
0..99, for which the local midnight that opens its week exists in the local zone (no clock
change skips it, as is always so in a zone with a constant offset), and which lies with its
window inside the range of valid time values, `getWeekRangeForDate` returns a window of
valid time values that starts at local midnight of a Monday, namely the calendar day
`(weekday + 6) mod 7` days before the calendar day of the reference date (weekday counted
from Sunday = 0), and whose `end - start` is `7*24*60*60*1000 - 1` ms. -/
theorem getWeekRangeForDate_monday (tz : Zone) (date : Int)
    (hy : ¬ (0 ≤ getFullYear tz date ∧ getFullYear tz date ≤ 99))
    (hex : localTimeExists tz (weekStartLocal tz date))
    (hv : validTime date ∧ validTime (getWeekRangeForDate tz date).start ∧
      validTime (getWeekRangeForDate tz date).end_) :
    (TimeClip (getWeekRangeForDate tz date).start = some (getWeekRangeForDate tz date).start ∧
      TimeClip (getWeekRangeForDate tz date).end_ = some (getWeekRangeForDate tz date).end_) ∧
    TimeWithinDay (LocalTime tz (getWeekRangeForDate tz date).start) = 0 ∧
    getDay tz (getWeekRangeForDate tz date).start = 1 ∧
    (0 ≤ getDay tz date ∧ getDay tz date ≤ 6) ∧
    Day (LocalTime tz (getWeekRangeForDate tz date).start)
      = Day (LocalTime tz date) - (getDay tz date + 6) % 7 ∧
    (getWeekRangeForDate tz date).end_ - (getWeekRangeForDate tz date).start
      = 7 * 24 * 60 * 60 * 1000 - 1 := by
  have hl : LocalTime tz (getWeekRangeForDate tz date).start = weekStartLocal tz date := by
    rw [getWeekRangeForDate_start tz date hy hex]
    exact hex
  refine ⟨⟨if_pos hv.2.1, if_pos hv.2.2⟩, ?_⟩
  rw [getWeekRangeForDate_end]
  unfold getDay
  rw [hl]
  unfold weekStartLocal getDay WeekDay TimeWithinDay Day MakeDate MakeTime msPerDay
  generalize LocalTime tz date = l
  refine ⟨?_, ?_, ?_, ?_, ?_⟩ <;> omega

/-- Witness for C4 (amended): 2026-11-04T12:00Z, a Wednesday, in the zone at UTC offset 0,
where the week starts on Monday 2026-11-02T00:00Z; and Sunday 2026-11-01T12:00 New York
time, in the week in which daylight saving ends. -/
theorem getWeekRangeForDate_monday_witness :
    (¬ (0 ≤ getFullYear utcZone 1793793600000 ∧ getFullYear utcZone 1793793600000 ≤ 99) ∧
      localTimeExists utcZone (weekStartLocal utcZone 1793793600000) ∧
      (validTime 1793793600000 ∧ validTime (getWeekRangeForDate utcZone 1793793600000).start ∧
        validTime (getWeekRangeForDate utcZone 1793793600000).end_) ∧
      TimeWithinDay (LocalTime utcZone (getWeekRangeForDate utcZone 1793793600000).start) = 0 ∧
      getDay utcZone (getWeekRangeForDate utcZone 1793793600000).start = 1 ∧
      (0 ≤ getDay utcZone 1793793600000 ∧ getDay utcZone 1793793600000 ≤ 6) ∧
      Day (LocalTime utcZone (getWeekRangeForDate utcZone 1793793600000).start)
        = Day (LocalTime utcZone 1793793600000) - (getDay utcZone 1793793600000 + 6) % 7 ∧
      (getWeekRangeForDate utcZone 1793793600000).end_
        - (getWeekRangeForDate utcZone 1793793600000).start = 7 * 24 * 60 * 60 * 1000 - 1) ∧
    (¬ (0 ≤ getFullYear newYork2026 1793552400000 ∧
        getFullYear newYork2026 1793552400000 ≤ 99) ∧
      localTimeExists newYork2026 (weekStartLocal newYork2026 1793552400000) ∧
      (validTime 1793552400000 ∧
        validTime (getWeekRangeForDate newYork2026 1793552400000).start ∧
        validTime (getWeekRangeForDate newYork2026 1793552400000).end_) ∧
      TimeWithinDay
        (LocalTime newYork2026 (getWeekRangeForDate newYork2026 1793552400000).start) = 0 ∧
      getDay newYork2026 (getWeekRangeForDate newYork2026 1793552400000).start = 1) :=
  ⟨⟨by decide, localTimeExists_fixedZone 0 _, by unfold validTime; decide,
      (getWeekRangeForDate_monday utcZone 1793793600000 (by decide)
        (localTimeExists_fixedZone 0 _) (by unfold validTime; decide)).2⟩,
    ⟨by decide, by unfold localTimeExists; decide, by unfold validTime; decide,
      (getWeekRangeForDate_monday newYork2026 1793552400000 (by decide)
        (by unfold localTimeExists; decide) (by unfold validTime; decide)).2.1,
      (getWeekRangeForDate_monday newYork2026 1793552400000 (by decide)
        (by unfold localTimeExists; decide) (by unfold validTime; decide)).2.2.1⟩⟩

/-- C4 (as stated) fails in three ways. At 0050-06-15T12:00Z, a Wednesday, in the zone at
UTC offset 0, `new Date(50, 5, 13)` reads the year 50 as 1950, so the window starts on
1950-06-13, a Tuesday, and not on the calendar day two days before the reference date. At
2021-03-24T12:00 Tehran time, a Wednesday, the midnight of Monday 2021-03-22 is skipped by
the start of daylight saving, and the window starts at 01:00 local time of that Monday. At
the last valid date, 8640000000000000 ms (a Saturday of the year 275760), the end of the
window is beyond the range of time values, where `TimeClip` makes it `NaN`. -/
theorem getWeekRangeForDate_monday_counterexample :
    ((getFullYear utcZone (-60574996800000), getMonth utcZone (-60574996800000),
        getDate utcZone (-60574996800000), getDay utcZone (-60574996800000)) = (50, 5, 15, 3) ∧
      (getWeekRangeForDate utcZone (-60574996800000)).start = -617068800000 ∧
      (getFullYear utcZone (-617068800000), getMonth utcZone (-617068800000),
        getDate utcZone (-617068800000), getDay utcZone (-617068800000)) = (1950, 5, 13, 2) ∧
      getDay utcZone (getWeekRangeForDate utcZone (-60574996800000)).start ≠ 1 ∧
      Day (LocalTime utcZone (getWeekRangeForDate utcZone (-60574996800000)).start)
        ≠ Day (LocalTime utcZone (-60574996800000))
          - (getDay utcZone (-60574996800000) + 6) % 7) ∧
    ((getFullYear tehran2021 1616571000000, getMonth tehran2021 1616571000000,
        getDate tehran2021 1616571000000, getDay tehran2021 1616571000000) = (2021, 2, 24, 3) ∧
      (getWeekRangeForDate tehran2021 1616571000000).start = 1616358600000 ∧
      (getFullYear tehran2021 1616358600000, getMonth tehran2021 1616358600000,
        getDate tehran2021 1616358600000, getDay tehran2021 1616358600000) = (2021, 2, 22, 1) ∧
      TimeWithinDay (LocalTime tehran2021 (getWeekRangeForDate tehran2021 1616571000000).start)
        = 3600000 ∧
      TimeWithinDay (LocalTime tehran2021 (getWeekRangeForDate tehran2021 1616571000000).start)
        ≠ 0) ∧
    ((getFullYear utcZone 8640000000000000, getMonth utcZone 8640000000000000,
        getDate utcZone 8640000000000000, getDay utcZone 8640000000000000)
        = (275760, 8, 13, 6) ∧
      TimeClip 8640000000000000 = some 8640000000000000 ∧
      (getWeekRangeForDate utcZone 8640000000000000).end_ = 8640000172799999 ∧
      TimeClip (getWeekRangeForDate utcZone 8640000000000000).end_ = none) := by
  refine ⟨⟨by decide, by decide, by decide, by decide, by decide⟩,
    ⟨by decide, by decide, by decide, by decide, by decide⟩,
    ⟨by decide, by decide, by decide, by decide⟩⟩

/-- A week across the end of daylight saving: for Sunday 2026-11-01T12:00 New York time
(17:00Z, UTC-5) the window starts on Monday 2026-10-26T00:00 local time, which is 04:00Z
under the offset UTC-4 then in force. -/
theorem getWeekRangeForDate_fall_back_example :
    getWeekRangeForDate newYork2026 1793552400000 = ⟨1792987200000, 1793591999999⟩ ∧
    (getFullYear newYork2026 1792987200000, getMonth newYork2026 1792987200000,
      getDate newYork2026 1792987200000, getDay newYork2026 1792987200000) = (2026, 9, 26, 1) ∧
    TimeWithinDay (LocalTime newYork2026 1792987200000) = 0 ∧
    localTimeExists newYork2026 (weekStartLocal newYork2026 1793552400000) := by
  refine ⟨by decide, by decide, by decide, ?_⟩
  unfold localTimeExists
  decide

/-! ## Loops -/

theorem range_succ_map_shift {α : Type} (g : Int → α) (i : Int) (n : Nat) :
    (List.range (n + 1)).map (fun k : Nat => g (i + k))
      = g i :: (List.range n).map (fun k : Nat => g (i + 1 + k)) := by
  rw [List.range_succ_eq_map, List.map_cons, List.map_map]
  congr 1
  · simp
  · apply List.map_congr_left
    intro k _
    simp only [Function.comp, Nat.succ_eq_add_one]
    congr 1
    push_cast
    ring

/-- The ascending loop pushes `f lo, f (lo+1), ..., f (hi-1)`. -/
theorem forUp_eq {α : Type} (f : Int → α) (hi i : Int) (acc : List α) :
    forUp f hi i acc = acc ++ (List.range (hi - i).toNat).map (fun k : Nat => f (i + k)) := by
  generalize hn : (hi - i).toNat = n
  induction n generalizing i acc with
  | zero =>
    rw [forUp]
    have : ¬ i < hi := by omega
    simp [this]
  | succ n ih =>
    rw [forUp]
    have h1 : i < hi := by omega
    have h2 : (hi - (i + 1)).toNat = n := by omega
    rw [if_pos h1, ih (i + 1) (acc ++ [f i]) h2, range_succ_map_shift]
    simp

/-- The descending loop pushes `f i, f (i-1), ..., f 0`. -/
theorem forDown_eq {α : Type} (f : Int → α) (i : Int) (acc : List α) :
    forDown f i acc = acc ++ (List.range (i + 1).toNat).map (fun k : Nat => f (i - k)) := by
  generalize hn : (i + 1).toNat = n
  induction n generalizing i acc with
  | zero =>
    rw [forDown]
    have : ¬ 0 ≤ i := by omega
    simp [this]
  | succ n ih =>
    rw [forDown]
    have h1 : 0 ≤ i := by omega
    have h2 : (i - 1 + 1).toNat = n := by omega
    have h3 := range_succ_map_shift (fun j => f (i - j)) 0 n
    simp only [zero_add] at h3
    rw [if_pos h1, ih (i - 1) (acc ++ [f i]) h2, h3]
    simp only [List.append_assoc, List.singleton_append, sub_zero]
    congr 2
    apply List.map_congr_left
    intro k _
    congr 1
    ring

/-- An ascending loop whose body never throws on `i .. hi-1` returns all its results. -/
theorem forUpM_eq {α : Type} (f : Int → Option α) (g : Int → α) (hi i : Int) (acc : List α)
    (hf : ∀ k, i ≤ k → k < hi → f k = some (g k)) :
    forUpM f hi i acc
      = some (acc ++ (List.range (hi - i).toNat).map (fun k : Nat => g (i + k))) := by
  generalize hn : (hi - i).toNat = n
  induction n generalizing i acc with
  | zero =>
    rw [forUpM]
    have : ¬ i < hi := by omega
    simp [this]
  | succ n ih =>
    rw [forUpM]
    have h1 : i < hi := by omega
    have h2 : (hi - (i + 1)).toNat = n := by omega
    rw [if_pos h1, hf i (le_refl i) h1]
    simp only []
    rw [ih (i + 1) (acc ++ [g i]) (fun k hk1 hk2 => hf k (by omega) hk2) h2,
      range_succ_map_shift]
    simp

/-! ## Weekly chart -/

theorem weeklySeries_eq (tz : Zone) (habit : Habit) (now n : Int) :
    weeklySeries tz habit now n
      = (List.range n.toNat).map
          (fun k : Nat => weekBar tz habit (getWeekRangeForDate tz now).start (n - 1 - k)) := by
  unfold weeklySeries
  simp only []
  rw [forDown_eq, sub_add_cancel, List.nil_append]

theorem weeklySeries_getElem? (tz : Zone) (habit : Habit) (now n : Int) (k : Nat)
    (b : WeekBar) (h : (weeklySeries tz habit now n)[k]? = some b) :
    k < n.toNat ∧ b = weekBar tz habit (getWeekRangeForDate tz now).start (n - 1 - k) := by
  rw [weeklySeries_eq, List.getElem?_map] at h
  by_cases hk : k < n.toNat
  · rw [List.getElem?_range hk] at h
    simp only [Option.map_some', Option.some.injEq] at h
    exact ⟨hk, h.symm⟩
  · rw [List.getElem?_eq_none (by simpa using hk)] at h
    simp at h

/-- C5: the weekly series of `renderStatsChart` has exactly `n` entries for `n > 0` and none
for `n <= 0`; the window of each entry begins exactly `7*24h` after the window of the entry
before it (oldest first) and spans `7*24h - 1` ms, each value is the rounded total of its
window in exact arithmetic, and the window of the last entry is `getWeekRangeForDate` of the
reference instant. -/
theorem weeklySeries_spec (tz : Zone) (habit : Habit) (now n : Int) :
    (n ≤ 0 → weeklySeries tz habit now n = []) ∧
    (0 < n → ((weeklySeries tz habit now n).length : Int) = n) ∧
    (∀ (k : Nat) (a b : WeekBar), (weeklySeries tz habit now n)[k]? = some a →
        (weeklySeries tz habit now n)[k + 1]? = some b →
        b.start = a.start + 7 * 24 * 60 * 60 * 1000) ∧
    (∀ b ∈ weeklySeries tz habit now n,
        b.end_ = b.start + 7 * 24 * 60 * 60 * 1000 - 1 ∧
        b.value = round2 (sessionsInRange habit.sessions b.start b.end_)) ∧
    (0 < n → ∃ last, (weeklySeries tz habit now n).getLast? = some last ∧
        (⟨last.start, last.end_⟩ : TimeWindow) = getWeekRangeForDate tz now) := by
  refine ⟨?_, ?_, ?_, ?_, ?_⟩
  · intro hn
    have : n.toNat = 0 := by omega
    rw [weeklySeries_eq, this]
    rfl
  · intro hn
    rw [weeklySeries_eq, List.length_map, List.length_range]
    omega
  · intro k a b ha hb
    obtain ⟨_, rfl⟩ := weeklySeries_getElem? tz habit now n k a ha
    obtain ⟨_, rfl⟩ := weeklySeries_getElem? tz habit now n (k + 1) b hb
    simp only [weekBar]
    push_cast
    ring
  · intro b hb
    rw [weeklySeries_eq, List.mem_map] at hb
    obtain ⟨k, _, rfl⟩ := hb
    exact ⟨rfl, rfl⟩
  · intro hn
    obtain ⟨m, hm⟩ : ∃ m : Nat, n.toNat = m + 1 := ⟨n.toNat - 1, by omega⟩
    refine ⟨weekBar tz habit (getWeekRangeForDate tz now).start 0, ?_, ?_⟩
    · rw [weeklySeries_eq, hm, List.range_succ, List.map_append, List.map_singleton,
        List.getLast?_append, List.getLast?_singleton]
      have : n - 1 - (m : Int) = 0 := by omega
      simp [this]
    · simp only [weekBar, getWeekRangeForDate_end]
      have : (getWeekRangeForDate tz now).start - 0 * 7 * 24 * 60 * 60 * 1000
          = (getWeekRangeForDate tz now).start := by ring
      rw [this]
      rfl

/-- Witness for C5: a habit with one session, six weeks back from 2026-11-04T12:00Z, and
the week counts 6 and 0. -/
theorem weeklySeries_spec_witness :
    (0 : Int) < 6 ∧ (0 : Int) ≤ 0 ∧
    ((weeklySeries utcZone ⟨"a", "read", 10, [⟨1793610000000, 1793617200000, 2⟩], none⟩
        1793793600000 6).length : Int) = 6 ∧
    weeklySeries utcZone ⟨"a", "read", 10, [⟨1793610000000, 1793617200000, 2⟩], none⟩
        1793793600000 0 = [] ∧
    (∃ last, (weeklySeries utcZone ⟨"a", "read", 10, [⟨1793610000000, 1793617200000, 2⟩], none⟩
        1793793600000 6).getLast? = some last ∧
        (⟨last.start, last.end_⟩ : TimeWindow) = getWeekRangeForDate utcZone 1793793600000) :=
  ⟨by decide, by decide,
    (weeklySeries_spec utcZone _ 1793793600000 6).2.1 (by decide),
    (weeklySeries_spec utcZone _ 1793793600000 0).1 (by decide),
    (weeklySeries_spec utcZone _ 1793793600000 6).2.2.2.2 (by decide)⟩

/-! ## Heatmap -/

theorem dailyTotals_eq (tz : Zone) (habit : Habit) (now n : Int) :
    dailyTotals tz habit now n
      = (List.range (n * 7).toNat).map
          (fun k : Nat => dayTotal habit (heatmapStartDay tz now n) k) := by
  unfold dailyTotals
  simp only []
  rw [forUp_eq, sub_zero, List.nil_append]
  apply List.map_congr_left
  intro k _
  rw [zero_add]

theorem dailyTotals_length (tz : Zone) (habit : Habit) (now n : Int) :
    (dailyTotals tz habit now n).length = (n * 7).toNat := by
  rw [dailyTotals_eq, List.length_map, List.length_range]

/-- Every index the row loop reads is inside `dailyTotals`. -/
theorem arrayGet_dailyTotals (tz : Zone) (habit : Habit) (now n w d : Int)
    (hw0 : 0 ≤ w) (hwn : w < n) (hd0 : 0 ≤ d) (hd7 : d < 7) :
    arrayGet (dailyTotals tz habit now n) (w * 7 + d)
      = some (dayTotal habit (heatmapStartDay tz now n) (w * 7 + d)) := by
  have h0 : ¬ (w * 7 + d < 0) := by omega
  have h1 : (w * 7 + d).toNat < (n * 7).toNat := by omega
  unfold arrayGet
  rw [if_neg h0, dailyTotals_eq, List.getElem?_map, List.getElem?_range h1]
  simp only [Option.map_some', Option.some.injEq]
  congr 1
  omega

/-- The cell the row loop builds for row `w` and column `d`. -/
theorem heatCell_eq (tz : Zone) (habit : Habit) (now n w d : Int)
    (hw0 : 0 ≤ w) (hwn : w < n) (hd0 : 0 ≤ d) (hd7 : d < 7) :
    heatCell (dailyTotals tz habit now n) (thresholds (sortedValues (dailyTotals tz habit now n)))
      w d = some (gridCell tz habit now n w d) := by
  unfold heatCell
  simp only []
  rw [arrayGet_dailyTotals tz habit now n w d hw0 hwn hd0 hd7]
  rfl

theorem heatRow_eq (tz : Zone) (habit : Habit) (now n w : Int) (hw0 : 0 ≤ w) (hwn : w < n) :
    heatRow (dailyTotals tz habit now n) (thresholds (sortedValues (dailyTotals tz habit now n)))
      w = some ((List.range 7).map (fun d : Nat => gridCell tz habit now n w d)) := by
  unfold heatRow
  rw [forUpM_eq _ (fun d => gridCell tz habit now n w d) 7 0 []
    (fun d hd0 hd7 => heatCell_eq tz habit now n w d hw0 hwn hd0 hd7)]
  simp

theorem heatmapGrid_eq (tz : Zone) (habit : Habit) (now n : Int) :
    heatmapGrid tz habit now n
      = some ((List.range n.toNat).map (fun w : Nat =>
          (List.range 7).map (fun d : Nat => gridCell tz habit now n w d))) := by
  unfold heatmapGrid
  simp only []
  rw [forUpM_eq _
    (fun w : Int => (List.range 7).map (fun d : Nat => gridCell tz habit now n w d))
    n 0 [] (fun w hw0 hwn => heatRow_eq tz habit now n w hw0 hwn)]
  simp

theorem sum_map_const_length {α : Type} (l : List (List α)) (c : Nat)
    (h : ∀ row ∈ l, row.length = c) : (l.map List.length).sum = l.length * c := by
  induction l with
  | nil => simp
  | cons x xs ih =>
    have hx := h x (List.mem_cons_self _ _)
    have hxs := ih (fun r hr => h r (List.mem_cons_of_mem _ hr))
    simp only [List.map_cons, List.sum_cons, List.length_cons, hx, hxs]
    ring

/-- C6: for an existing habit, whatever its sessions, and a week count `n > 0`,
`renderHeatmap` does not throw and builds exactly `n` rows of exactly 7 cells, `n * 7`
cells in all; `dailyTotals` has `n * 7` entries and every index `w*7 + d` read by the row
loop (`0 <= w < n`, `0 <= d < 7`) is inside it. -/
theorem renderHeatmap_shape (tz : Zone) (state : State) (habitId : String) (habit : Habit)
    (now n : Int) (hfind : findHabit state habitId = some habit) (hn : 0 < n) :
    ∃ grid, renderHeatmap tz state habitId now n = some grid ∧
      (grid.length : Int) = n ∧
      (∀ row ∈ grid, row.length = 7) ∧
      (((grid.map List.length).sum : Nat) : Int) = n * 7 ∧
      ((dailyTotals tz habit now n).length : Int) = n * 7 ∧
      (∀ w d : Int, 0 ≤ w → w < n → 0 ≤ d → d < 7 →
        0 ≤ w * 7 + d ∧ w * 7 + d < (dailyTotals tz habit now n).length ∧
        (arrayGet (dailyTotals tz habit now n) (w * 7 + d)).isSome = true) := by
  refine ⟨(List.range n.toNat).map (fun w : Nat =>
    (List.range 7).map (fun d : Nat => gridCell tz habit now n w d)), ?_, ?_, ?_, ?_, ?_, ?_⟩
  · unfold renderHeatmap
    rw [hfind]
    exact heatmapGrid_eq tz habit now n
  · rw [List.length_map, List.length_range]
    omega
  · intro row hrow
    rw [List.mem_map] at hrow
    obtain ⟨w, _, rfl⟩ := hrow
    rw [List.length_map, List.length_range]
  · rw [sum_map_const_length _ 7 (by
      intro row hrow
      rw [List.mem_map] at hrow
      obtain ⟨w, _, rfl⟩ := hrow
      rw [List.length_map, List.length_range])]
    rw [List.length_map, List.length_range]
    push_cast
    omega
  · rw [dailyTotals_length]
    omega
  · intro w d hw0 hwn hd0 hd7
    rw [dailyTotals_length, arrayGet_dailyTotals tz habit now n w d hw0 hwn hd0 hd7]
    refine ⟨by omega, by omega, rfl⟩

/-- Witness for C6: a store with one habit without sessions and twelve weeks: 84 cells. -/
theorem renderHeatmap_shape_witness :
    findHabit ⟨[⟨"a", "read", 10, [], none⟩]⟩ "a" = some ⟨"a", "read", 10, [], none⟩ ∧
    (0 : Int) < 12 ∧
    ∃ grid, renderHeatmap utcZone ⟨[⟨"a", "read", 10, [], none⟩]⟩ "a" 1793793600000 12 = some grid ∧
      (grid.length : Int) = 12 ∧
      (∀ row ∈ grid, row.length = 7) ∧
      (((grid.map List.length).sum : Nat) : Int) = 12 * 7 ∧
      ((dailyTotals utcZone ⟨"a", "read", 10, [], none⟩ 1793793600000 12).length : Int) = 12 * 7 ∧
      (∀ w d : Int, 0 ≤ w → w < 12 → 0 ≤ d → d < 7 →
        0 ≤ w * 7 + d ∧
        w * 7 + d < (dailyTotals utcZone ⟨"a", "read", 10, [], none⟩ 1793793600000 12).length ∧
        (arrayGet (dailyTotals utcZone ⟨"a", "read", 10, [], none⟩ 1793793600000 12)
          (w * 7 + d)).isSome = true) :=
  ⟨by decide, by decide,
    renderHeatmap_shape utcZone ⟨[⟨"a", "read", 10, [], none⟩]⟩ "a" ⟨"a", "read", 10, [], none⟩
      1793793600000 12 (by decide) (by decide)⟩

theorem round2_zero : round2 0 = 0 := by
  unfold round2
  have : ⌊(0 : ℚ) * 100 + 1 / 2⌋ = 0 := by
    rw [Int.floor_eq_iff]
    norm_num
  rw [this]
  norm_num

theorem mem_sortedValues (totals : List DayTotal) (v : ℚ) :
    v ∈ sortedValues totals ↔ ∃ t ∈ totals, t.hours = v := by
  unfold sortedValues
  rw [(List.perm_insertionSort (· ≤ ·) _).mem_iff, List.mem_map]

theorem sortedValues_length (totals : List DayTotal) :
    (sortedValues totals).length = totals.length := by
  unfold sortedValues
  rw [List.length_insertionSort, List.length_map]

/-- For a non-empty list and `0 <= p <= 1`, `q(p)` reads inside the list. -/
theorem q_mem (values : List ℚ) (p : ℚ) (hne : values ≠ []) (hp0 : 0 ≤ p) (hp1 : p ≤ 1) :
    ∃ v ∈ values, q values p = some v := by
  have hlen : 0 < values.length := List.length_pos.mpr hne
  have hl1 : (1 : ℚ) ≤ ((values.length : Int) : ℚ) := by
    have : (1 : Int) ≤ (values.length : Int) := by omega
    exact_mod_cast this
  have hx0 : 0 ≤ p * (((values.length : Int) : ℚ) - 1) :=
    mul_nonneg hp0 (by linarith)
  have hx1 : p * (((values.length : Int) : ℚ) - 1) ≤ ((values.length : Int) : ℚ) - 1 := by
    have := mul_le_mul_of_nonneg_right hp1 (by linarith : 0 ≤ ((values.length : Int) : ℚ) - 1)
    linarith
  have hf0 : 0 ≤ ⌊p * (((values.length : Int) : ℚ) - 1)⌋ := Int.floor_nonneg.mpr hx0
  have hf1 : ⌊p * (((values.length : Int) : ℚ) - 1)⌋ < (values.length : Int) :=
    Int.floor_lt.mpr (by linarith)
  have hidx : (⌊p * (((values.length : Int) : ℚ) - 1)⌋).toNat < values.length := by omega
  refine ⟨values[(⌊p * (((values.length : Int) : ℚ) - 1)⌋).toNat], List.getElem_mem _, ?_⟩
  unfold q arrayGet
  rw [if_neg (by omega)]
  simp only []
  rw [if_neg (by omega), List.getElem?_eq_getElem hidx]

theorem dailyTotals_mem (tz : Zone) (habit : Habit) (now n : Int) (t : DayTotal)
    (ht : t ∈ dailyTotals tz habit now n) :
    ∃ k : Nat, t = dayTotal habit (heatmapStartDay tz now n) k := by
  rw [dailyTotals_eq, List.mem_map] at ht
  obtain ⟨k, _, rfl⟩ := ht
  exact ⟨k, rfl⟩

/-- A habit without sessions has only zero daily totals. -/
theorem dailyTotals_zero_of_no_sessions (tz : Zone) (habit : Habit) (now n : Int)
    (hs : habit.sessions = []) : ∀ t ∈ dailyTotals tz habit now n, t.hours = 0 := by
  intro t ht
  obtain ⟨k, rfl⟩ := dailyTotals_mem tz habit now n t ht
  simp only [dayTotal, hs, sessionsInRange_nil, round2_zero]

/-- C7: for a week count `n > 0`, if the habit has no sessions, or more generally if every
one of the `n*7` daily totals is 0, the four thresholds of `renderHeatmap` are all 0 and the
grid is built with every cell at hours 0 and class `c0`. -/
theorem heatmap_all_zero (tz : Zone) (habit : Habit) (now n : Int) (hn : 0 < n)
    (hz : habit.sessions = [] ∨ ∀ t ∈ dailyTotals tz habit now n, t.hours = 0) :
    thresholds (sortedValues (dailyTotals tz habit now n)) = [some 0, some 0, some 0, some 0] ∧
    ∃ grid, heatmapGrid tz habit now n = some grid ∧ (grid.length : Int) = n ∧
      ∀ row ∈ grid, row.length = 7 ∧ ∀ c ∈ row, c.hours = 0 ∧ c.cls = "c0" := by
  have hzero : ∀ t ∈ dailyTotals tz habit now n, t.hours = 0 := by
    rcases hz with hs | h
    · exact dailyTotals_zero_of_no_sessions tz habit now n hs
    · exact h
  have hne : sortedValues (dailyTotals tz habit now n) ≠ [] := by
    intro h
    have h1 := sortedValues_length (dailyTotals tz habit now n)
    rw [h, dailyTotals_length] at h1
    simp only [List.length_nil] at h1
    omega
  have hq : ∀ p : ℚ, 0 ≤ p → p ≤ 1 →
      q (sortedValues (dailyTotals tz habit now n)) p = some 0 := by
    intro p hp0 hp1
    obtain ⟨v, hv, hqv⟩ := q_mem _ p hne hp0 hp1
    obtain ⟨t, ht, rfl⟩ := (mem_sortedValues _ _).mp hv
    rw [hqv, hzero t ht]
  have hth : thresholds (sortedValues (dailyTotals tz habit now n))
      = [some 0, some 0, some 0, some 0] := by
    unfold thresholds
    rw [hq _ (by norm_num) (by norm_num), hq _ (by norm_num) (by norm_num),
      hq _ (by norm_num) (by norm_num), hq _ (by norm_num) (by norm_num)]
  refine ⟨hth, _, heatmapGrid_eq tz habit now n, ?_, ?_⟩
  · rw [List.length_map, List.length_range]
    omega
  · intro row hrow
    rw [List.mem_map] at hrow
    obtain ⟨w, hw, rfl⟩ := hrow
    refine ⟨by rw [List.length_map, List.length_range], ?_⟩
    intro c hc
    rw [List.mem_map] at hc
    obtain ⟨d, hd, rfl⟩ := hc
    rw [List.mem_range] at hw hd
    have hmem : dayTotal habit (heatmapStartDay tz now n) ((w : Int) * 7 + d)
        ∈ dailyTotals tz habit now n := by
      rw [dailyTotals_eq, List.mem_map]
      refine ⟨w * 7 + d, List.mem_range.mpr (by omega), ?_⟩
      push_cast
      rfl
    have h0 := hzero _ hmem
    unfold gridCell
    simp only []
    rw [hth, h0]
    exact ⟨rfl, by decide⟩

/-- Witness for C7: a habit without sessions and twelve weeks. -/
theorem heatmap_all_zero_witness :
    (0 : Int) < 12 ∧ (⟨"a", "read", 10, [], none⟩ : Habit).sessions = [] ∧
    thresholds (sortedValues (dailyTotals utcZone ⟨"a", "read", 10, [], none⟩ 1793793600000 12))
      = [some 0, some 0, some 0, some 0] ∧
    ∃ grid, heatmapGrid utcZone ⟨"a", "read", 10, [], none⟩ 1793793600000 12 = some grid ∧
      (grid.length : Int) = 12 ∧
      ∀ row ∈ grid, row.length = 7 ∧ ∀ c ∈ row, c.hours = 0 ∧ c.cls = "c0" :=
  ⟨by decide, rfl,
    heatmap_all_zero utcZone ⟨"a", "read", 10, [], none⟩ 1793793600000 12 (by decide) (Or.inl rfl)⟩

/-! ## Session filter -/

theorem applyFiltersToSessions_sublist (tz : Zone) (filters : Filters) (sessions : List Session) :
    (applyFiltersToSessions tz filters sessions).Sublist sessions :=
  List.filter_sublist _

/-- Away from the zero instant the code filters as the specification says: when neither the
start of day of `from` nor the end of day of `to` is the instant 0, the result is the input
filtered, in input order, by the specified predicate. -/
theorem applyFiltersToSessions_eq_spec (tz : Zone) (filters : Filters) (sessions : List Session)
    (hfrom : ∀ f, filters.from_ = some f → setHours tz f 0 0 0 0 ≠ 0)
    (hto : ∀ t, filters.to_ = some t → setHours tz t 23 59 59 999 ≠ 0) :
    applyFiltersToSessions tz filters sessions = filterSessionsSpec tz filters sessions := by
  unfold applyFiltersToSessions filterSessionsSpec
  apply List.filter_congr
  intro s _
  obtain ⟨ff, ft, fm⟩ := filters
  cases ff with
  | none =>
    cases ft with
    | none => cases fm <;> simp [passesFilters, truthy]
    | some t =>
      have h2 := hto t rfl
      cases fm <;> simp [passesFilters, truthy, h2]
  | some f =>
    have h1 := hfrom f rfl
    cases ft with
    | none => cases fm <;> simp [passesFilters, truthy, h1]
    | some t =>
      have h2 := hto t rfl
      cases fm <;> simp [passesFilters, truthy, h1, h2]

/-- C8 (the code at the failing input): in a zone at UTC offset 0 with `from` = 1970-01-01,
the start of day of `from` is the instant 0, which `!from` takes for an absent bound; the
session that starts at -3600000 (one hour before that day) is returned, although its start
is before the start of day of `from` and the specified filter drops it. -/
theorem applyFiltersToSessions_zero_from :
    setHours utcZone 0 0 0 0 0 = 0 ∧
    applyFiltersToSessions utcZone ⟨some 0, none, none⟩ [⟨-3600000, 3600000, 2⟩]
      = [⟨-3600000, 3600000, 2⟩] ∧
    ¬ ((-3600000 : Int) ≥ setHours utcZone 0 0 0 0 0) ∧
    filterSessionsSpec utcZone ⟨some 0, none, none⟩ [⟨-3600000, 3600000, 2⟩] = [] := by
  refine ⟨by decide, by decide, by decide, by decide⟩

/-! ## The store -/

theorem updateHabit_of_find (id : String) (f : Habit → Habit) (l : List Habit) (h : Habit)
    (hfind : l.find? (fun x => x.id == id) = some h) :
    ∃ l1 l2, l = l1 ++ h :: l2 ∧ updateHabit id f l = l1 ++ f h :: l2 := by
  induction l with
  | nil => simp at hfind
  | cons x xs ih =>
    by_cases hx : (x.id == id) = true
    · rw [List.find?_cons, hx] at hfind
      cases hfind
      exact ⟨[], xs, rfl, by simp [updateHabit, hx]⟩
    · have hx2 : (x.id == id) = false := by simpa using hx
      rw [List.find?_cons, hx2] at hfind
      obtain ⟨l1, l2, h1, h2⟩ := ih hfind
      refine ⟨x :: l1, l2, by simp [h1], ?_⟩
      simp [updateHabit, hx, h2]

/-- Starting a habit whose `activeStart` is truthy (set, and not the instant 0) changes
nothing. -/
theorem startHabit_of_truthy (state : State) (id : String) (now : Int) (h : Habit)
    (hfind : findHabit state id = some h) (hact : truthy h.activeStart = true) :
    startHabit state id now = state := by
  unfold startHabit
  rw [hfind]
  simp [hact]

/-- Stopping a habit whose `activeStart` is falsy (`null`, or the instant 0), or an unknown
habit, changes nothing. -/
theorem stopHabit_of_falsy (state : State) (id : String) (now : Int)
    (hact : ∀ h, findHabit state id = some h → truthy h.activeStart = false) :
    stopHabit state id now = state := by
  unfold stopHabit
  cases hfind : findHabit state id with
  | none => rfl
  | some h => simp [hact h hfind]

/-- The instant 0 counts as not set: the guard of `startHabit` tests `h.activeStart` for
truthiness, so a habit whose `activeStart` is 0 is started like one whose `activeStart` is
`null`. -/
theorem startHabit_zero_activeStart :
    findHabit ⟨[⟨"a", "read", 10, [], some 0⟩]⟩ "a" = some ⟨"a", "read", 10, [], some 0⟩ ∧
    startHabit ⟨[⟨"a", "read", 10, [], some 0⟩]⟩ "a" 5 = ⟨[⟨"a", "read", 10, [], some 5⟩]⟩ ∧
    startHabit ⟨[⟨"a", "read", 10, [], some 0⟩]⟩ "a" 5 ≠ ⟨[⟨"a", "read", 10, [], some 0⟩]⟩ := by
  refine ⟨by decide, by decide, by decide⟩

/-- C10 (the code at the failing input): from the empty store, a habit is created, started
at clock reading 1000 and stopped at the same reading 1000 (the clock did not go backwards);
`stopHabit` appends the session `{ start: 1000, end: 1000, durationHours: 0 }`, for which
`end > start` fails. -/
theorem stopHabit_same_instant :
    clockMonotone [Op.create "a" "read" 10, Op.start "a" 1000, Op.stop "a" 1000] ∧
    run emptyState [Op.create "a" "read" 10, Op.start "a" 1000, Op.stop "a" 1000]
      = ⟨[⟨"a", "read", 10, [⟨1000, 1000, 0⟩], none⟩]⟩ ∧
    ¬ ((⟨1000, 1000, 0⟩ : Session).end_ > (⟨1000, 1000, 0⟩ : Session).start) := by
  refine ⟨?_, ?_, by decide⟩
  · simp [clockMonotone, clockReadings]
  · simp [run, step, createHabit, startHabit, stopHabit, findHabit, updateHabit, truthy,
      emptyState]

theorem storeOk_mono (c c' : Int) (state : State) (hc : c ≤ c') (h : storeOk c state) :
    storeOk c' state := by
  intro x hx
  exact ⟨(h x hx).1, fun t ht => le_trans ((h x hx).2 t ht) hc⟩

theorem storeOk_updateHabit (c c' : Int) (state : State) (id : String) (f : Habit → Habit)
    (h : Habit) (hc : c ≤ c') (hok : storeOk c state) (hfind : findHabit state id = some h)
    (hf : ((∀ s ∈ h.sessions, sessionOk s) ∧ ∀ t, h.activeStart = some t → t ≤ c) →
      (∀ s ∈ (f h).sessions, sessionOk s) ∧ ∀ t, (f h).activeStart = some t → t ≤ c') :
    storeOk c' { habits := updateHabit id f state.habits } := by
  obtain ⟨l1, l2, h1, h2⟩ := updateHabit_of_find id f state.habits h hfind
  have hmono := storeOk_mono c c' state hc hok
  intro x hx
  simp only [h2, List.mem_append, List.mem_cons] at hx
  rcases hx with hx | rfl | hx
  · exact hmono x (by rw [h1]; simp [hx])
  · exact hf (hok h (by rw [h1]; simp))
  · exact hmono x (by rw [h1]; simp [hx])

theorem storeOk_createHabit (c : Int) (state : State) (id name : String) (goalHours : ℚ)
    (hok : storeOk c state) : storeOk c (createHabit state id name goalHours) := by
  intro x hx
  simp only [createHabit, List.mem_append, List.mem_singleton] at hx
  rcases hx with hx | rfl
  · exact hok x hx
  · exact ⟨by simp, by simp⟩

theorem storeOk_startHabit (c now : Int) (state : State) (id : String) (hc : c ≤ now)
    (hok : storeOk c state) : storeOk now (startHabit state id now) := by
  unfold startHabit
  cases hfind : findHabit state id with
  | none => exact storeOk_mono c now state hc hok
  | some h =>
    by_cases hact : truthy h.activeStart = true
    · simp only [hact, if_true]
      exact storeOk_mono c now state hc hok
    · simp only [hact]
      refine storeOk_updateHabit c now state id _ h hc hok hfind ?_
      intro hh
      refine ⟨hh.1, ?_⟩
      intro t ht
      simp only [Option.some.injEq] at ht
      omega

theorem storeOk_stopHabit (c now : Int) (state : State) (id : String) (hc : c ≤ now)
    (hok : storeOk c state) : storeOk now (stopHabit state id now) := by
  unfold stopHabit
  cases hfind : findHabit state id with
  | none => exact storeOk_mono c now state hc hok
  | some h =>
    by_cases hact : truthy h.activeStart = true
    · simp only [hact, Bool.not_true]
      cases hst : h.activeStart with
      | none => exact storeOk_mono c now state hc hok
      | some start =>
        simp only []
        refine storeOk_updateHabit c now state id _ h hc hok hfind ?_
        intro hh
        refine ⟨?_, by simp⟩
        intro s hs
        simp only [List.mem_append, List.mem_singleton] at hs
        rcases hs with hs | rfl
        · exact hh.1 s hs
        · have := hh.2 start hst
          refine ⟨by simp only; omega, ?_⟩
          norm_num
    · have hact2 : truthy h.activeStart = false := by simpa using hact
      simp only [hact2, Bool.not_false, if_true]
      exact storeOk_mono c now state hc hok

theorem storeOk_manualAddSession (c : Int) (state : State) (id : String)
    (start end_ : Option Int) (hok : storeOk c state) :
    storeOk c (manualAddSession state id start end_) := by
  unfold manualAddSession
  cases hfind : findHabit state id with
  | none => exact hok
  | some h =>
    cases start with
    | none => exact hok
    | some s =>
      cases end_ with
      | none => exact hok
      | some e =>
        simp only []
        split_ifs with hg
        · exact hok
        · refine storeOk_updateHabit c c state id _ h (le_refl c) hok hfind ?_
          intro hh
          refine ⟨?_, hh.2⟩
          intro x hx
          simp only [List.mem_append, List.mem_singleton] at hx
          rcases hx with hx | rfl
          · exact hh.1 x hx
          · simp only [Bool.or_eq_true, decide_eq_true_eq, not_or, not_le] at hg
            refine ⟨by simp only; omega, ?_⟩
            norm_num

theorem run_storeOk (ops : List Op) (state : State) (c : Int) (hok : storeOk c state)
    (hclock : List.Chain (· ≤ ·) c (clockReadings ops)) :
    ∃ c', storeOk c' (run state ops) := by
  induction ops generalizing state c with
  | nil => exact ⟨c, hok⟩
  | cons op ops ih =>
    cases op with
    | create id name goalHours =>
      exact ih _ c (storeOk_createHabit c state id name goalHours hok) hclock
    | start id now =>
      simp only [clockReadings, List.chain_cons] at hclock
      exact ih _ now (storeOk_startHabit c now state id hclock.1 hok) hclock.2
    | stop id now =>
      simp only [clockReadings, List.chain_cons] at hclock
      exact ih _ now (storeOk_stopHabit c now state id hclock.1 hok) hclock.2
    | manualAdd id start end_ =>
      exact ih _ c (storeOk_manualAddSession c state id start end_ hok) hclock

/-- What the store guarantees under a clock that never goes backwards: in every state
reached from the empty store, every session has `end >= start` and `durationHours` equal to
`(end - start) / 3600000`. -/
theorem reachable_sessionOk (ops : List Op) (hclock : clockMonotone ops) :
    ∀ h ∈ (run emptyState ops).habits, ∀ s ∈ h.sessions, sessionOk s := by
  have h0 : ∀ c, storeOk c emptyState := by
    intro c x hx
    simp [emptyState] at hx
  have key : ∃ c', storeOk c' (run emptyState ops) := by
    unfold clockMonotone at hclock
    cases hr : clockReadings ops with
    | nil => exact run_storeOk ops emptyState 0 (h0 0) (by rw [hr]; exact List.Chain.nil)
    | cons a l =>
      rw [hr] at hclock
      refine run_storeOk ops emptyState a (h0 a) ?_
      rw [hr]
      exact List.Chain.cons (le_refl a) hclock
  obtain ⟨c', hc'⟩ := key
  exact fun h hh => (hc' h hh).1

/-! ## Bounds of the range aggregator -/

/-- One session in a non-empty window: its clipped length lies between 0 and its own
length. -/
theorem contribution_bounds (s : Session) (a b : Int) (hw : a ≤ b) (hs : s.start ≤ s.end_) :
    0 ≤ contribution a b s ∧ contribution a b s ≤ ((s.end_ - s.start : Int) : ℚ) / 3600000 := by
  unfold contribution overlaps clippedHours
  by_cases h1 : s.start ≤ b
  · by_cases h2 : s.end_ ≥ a
    · simp only [h1, h2, decide_True, Bool.and_self, if_true]
      have e1 : (0 : Int) ≤ min s.end_ b - max s.start a := by omega
      have e2 : min s.end_ b - max s.start a ≤ s.end_ - s.start := by omega
      have q1 : (0 : ℚ) ≤ ((min s.end_ b - max s.start a : Int) : ℚ) := by exact_mod_cast e1
      have q2 : ((min s.end_ b - max s.start a : Int) : ℚ) ≤ ((s.end_ - s.start : Int) : ℚ) := by
        exact_mod_cast e2
      constructor
      · positivity
      · have e3 : ((1000 : ℚ) * 60 * 60) = 3600000 := by norm_num
        rw [e3]
        exact div_le_div_of_nonneg_right q2 (by norm_num)
    · simp only [h1, h2, decide_True, decide_False, Bool.and_false, if_false]
      have e1 : (0 : Int) ≤ s.end_ - s.start := by omega
      have q1 : (0 : ℚ) ≤ ((s.end_ - s.start : Int) : ℚ) := by exact_mod_cast e1
      exact ⟨le_refl 0, by positivity⟩
  · simp only [h1, decide_False, Bool.false_and, if_false]
    have e1 : (0 : Int) ≤ s.end_ - s.start := by omega
    have q1 : (0 : ℚ) ≤ ((s.end_ - s.start : Int) : ℚ) := by exact_mod_cast e1
    exact ⟨le_refl 0, by positivity⟩

/-- A session that the filter of `sessionsInRange` drops contributes nothing. -/
theorem contribution_of_not_overlaps (s : Session) (a b : Int)
    (h : ¬ (s.start ≤ b ∧ s.end_ ≥ a)) : contribution a b s = 0 := by
  unfold contribution overlaps
  have : (decide (s.start ≤ b) && decide (s.end_ ≥ a)) = false := by simpa using h
  rw [this]
  rfl

/-- C11: for a window with `rangeStart <= rangeEnd` and sessions with `end >= start`,
`sessionsInRange` is non-negative and at most the sum of the sessions' own durations
`(end - start) / 3600000`; it is 0 when no session satisfies `start <= rangeEnd` and
`end >= rangeStart`, in particular for the empty list. -/
theorem sessionsInRange_bounds (sessions : List Session) (rangeStart rangeEnd : Int)
    (hw : rangeStart ≤ rangeEnd) (hs : ∀ s ∈ sessions, s.start ≤ s.end_) :
    0 ≤ sessionsInRange sessions rangeStart rangeEnd ∧
    sessionsInRange sessions rangeStart rangeEnd
      ≤ (sessions.map (fun s => ((s.end_ - s.start : Int) : ℚ) / 3600000)).sum ∧
    ((∀ s ∈ sessions, ¬ (s.start ≤ rangeEnd ∧ s.end_ ≥ rangeStart)) →
      sessionsInRange sessions rangeStart rangeEnd = 0) ∧
    sessionsInRange [] rangeStart rangeEnd = 0 := by
  refine ⟨?_, ?_, ?_, sessionsInRange_nil _ _⟩
  · induction sessions with
    | nil => simp [sessionsInRange_nil]
    | cons s l ih =>
      have h1 := (contribution_bounds s rangeStart rangeEnd hw (hs s (List.mem_cons_self _ _))).1
      have h2 := ih (fun x hx => hs x (List.mem_cons_of_mem _ hx))
      rw [sessionsInRange_cons]
      linarith
  · induction sessions with
    | nil => simp [sessionsInRange_nil]
    | cons s l ih =>
      have h1 := (contribution_bounds s rangeStart rangeEnd hw (hs s (List.mem_cons_self _ _))).2
      have h2 := ih (fun x hx => hs x (List.mem_cons_of_mem _ hx))
      rw [sessionsInRange_cons, List.map_cons, List.sum_cons]
      linarith
  · intro hno
    clear hs
    induction sessions with
    | nil => exact sessionsInRange_nil _ _
    | cons s l ih =>
      have h1 := contribution_of_not_overlaps s rangeStart rangeEnd
        (hno s (List.mem_cons_self _ _))
      have h2 := ih (fun x hx => hno x (List.mem_cons_of_mem _ hx))
      rw [sessionsInRange_cons, h1, h2, add_zero]

/-- Witness for C11: the day window [0, 86399999] with one session across its start, one
inside it and one after it. -/
theorem sessionsInRange_bounds_witness :
    (0 : Int) ≤ 86399999 ∧
    (∀ s ∈ [(⟨-3600000, 3600000, 2⟩ : Session), ⟨7200000, 9000000, 1 / 2⟩,
        ⟨90000000, 93600000, 1⟩], s.start ≤ s.end_) ∧
    0 ≤ sessionsInRange [(⟨-3600000, 3600000, 2⟩ : Session), ⟨7200000, 9000000, 1 / 2⟩,
        ⟨90000000, 93600000, 1⟩] 0 86399999 ∧
    sessionsInRange [(⟨-3600000, 3600000, 2⟩ : Session), ⟨7200000, 9000000, 1 / 2⟩,
        ⟨90000000, 93600000, 1⟩] 0 86399999
      ≤ ([(⟨-3600000, 3600000, 2⟩ : Session), ⟨7200000, 9000000, 1 / 2⟩,
          ⟨90000000, 93600000, 1⟩].map
            (fun s => ((s.end_ - s.start : Int) : ℚ) / 3600000)).sum :=
  ⟨by decide, by simp,
    (sessionsInRange_bounds _ 0 86399999 (by decide) (by simp)).1,
    (sessionsInRange_bounds _ 0 86399999 (by decide) (by simp)).2.1⟩

/-! ## Thresholds and bins of the heatmap -/

theorem sortedValues_sorted (totals : List DayTotal) :
    (sortedValues totals).Sorted (· ≤ ·) := by
  unfold sortedValues
  exact List.sorted_insertionSort (· ≤ ·) _

/-- For a non-empty list and `0 <= p <= 1`, `q(p)` is the entry at index
`floor(p * (length - 1))`. -/
theorem q_eq_getElem (values : List ℚ) (p : ℚ) (hne : values ≠ []) (hp0 : 0 ≤ p)
    (hp1 : p ≤ 1) :
    ∃ (i : Nat) (hi : i < values.length), q values p = some (values[i]) ∧
      (i : Int) = ⌊p * (((values.length : Int) : ℚ) - 1)⌋ := by
  have hlen : 0 < values.length := List.length_pos.mpr hne
  have hl1 : (1 : ℚ) ≤ ((values.length : Int) : ℚ) := by
    have : (1 : Int) ≤ (values.length : Int) := by omega
    exact_mod_cast this
  have hx0 : 0 ≤ p * (((values.length : Int) : ℚ) - 1) :=
    mul_nonneg hp0 (by linarith)
  have hx1 : p * (((values.length : Int) : ℚ) - 1) ≤ ((values.length : Int) : ℚ) - 1 := by
    have := mul_le_mul_of_nonneg_right hp1 (by linarith : 0 ≤ ((values.length : Int) : ℚ) - 1)
    linarith
  have hf0 : 0 ≤ ⌊p * (((values.length : Int) : ℚ) - 1)⌋ := Int.floor_nonneg.mpr hx0
  have hf1 : ⌊p * (((values.length : Int) : ℚ) - 1)⌋ < (values.length : Int) :=
    Int.floor_lt.mpr (by linarith)
  have hidx : (⌊p * (((values.length : Int) : ℚ) - 1)⌋).toNat < values.length := by omega
  refine ⟨(⌊p * (((values.length : Int) : ℚ) - 1)⌋).toNat, hidx, ?_, by omega⟩
  unfold q arrayGet
  rw [if_neg (by omega)]
  simp only []
  rw [if_neg (by omega), List.getElem?_eq_getElem hidx]

/-- Over a sorted non-empty list, `q` is non-decreasing in `p` and reads entries of the
list. -/
theorem q_mono (values : List ℚ) (p p' : ℚ) (hs : values.Sorted (· ≤ ·)) (hne : values ≠ [])
    (hp0 : 0 ≤ p) (hpp : p ≤ p') (hp1 : p' ≤ 1) :
    ∃ a b, q values p = some a ∧ q values p' = some b ∧ a ∈ values ∧ b ∈ values ∧ a ≤ b := by
  obtain ⟨i, hi, hqi, hie⟩ := q_eq_getElem values p hne hp0 (le_trans hpp hp1)
  obtain ⟨j, hj, hqj, hje⟩ := q_eq_getElem values p' hne (le_trans hp0 hpp) hp1
  have hlen : 0 < values.length := List.length_pos.mpr hne
  have hl1 : (0 : ℚ) ≤ ((values.length : Int) : ℚ) - 1 := by
    have : (1 : Int) ≤ (values.length : Int) := by omega
    have h2 : (1 : ℚ) ≤ ((values.length : Int) : ℚ) := by exact_mod_cast this
    linarith
  have hfl : ⌊p * (((values.length : Int) : ℚ) - 1)⌋ ≤ ⌊p' * (((values.length : Int) : ℚ) - 1)⌋ :=
    Int.floor_mono (mul_le_mul_of_nonneg_right hpp hl1)
  have hij : i ≤ j := by omega
  refine ⟨values[i], values[j], hqi, hqj, List.getElem_mem _, List.getElem_mem _, ?_⟩
  have := hs.rel_get_of_le (a := ⟨i, hi⟩) (b := ⟨j, hj⟩) (by simpa using hij)
  simpa using this

theorem jsGt_mono (h1 h2 : ℚ) (t : Option ℚ) (h : h1 ≤ h2) (c : jsGt h1 t = true) :
    jsGt h2 t = true := by
  cases t with
  | none => simp [jsGt] at c
  | some x =>
    simp only [jsGt, decide_eq_true_eq] at c ⊢
    exact lt_of_lt_of_le c h

theorem thresholdsBelow_mono (th : List (Option ℚ)) (h1 h2 : ℚ) (h : h1 ≤ h2) :
    thresholdsBelow th h1 ≤ thresholdsBelow th h2 := by
  unfold thresholdsBelow
  induction th with
  | nil => simp
  | cons t ts ih =>
    rw [List.filter_cons, List.filter_cons]
    by_cases c1 : jsGt h1 t = true
    · have c2 := jsGt_mono h1 h2 t h c1
      simp only [c1, c2, if_true, List.length_cons]
      omega
    · have c1f : jsGt h1 t = false := by simpa using c1
      by_cases c2 : jsGt h2 t = true
      · simp only [c1f, c2, if_true, Bool.false_eq_true, if_false, List.length_cons]
        omega
      · have c2f : jsGt h2 t = false := by simpa using c2
        simp only [c1f, c2f, Bool.false_eq_true, if_false]
        exact ih

/-- With non-decreasing thresholds the cascade counts the thresholds strictly below `h`. -/
theorem binOfClass_heatClass (t0 t1 t2 t3 h : ℚ) (h01 : t0 ≤ t1) (h12 : t1 ≤ t2)
    (h23 : t2 ≤ t3) :
    binOfClass (heatClass [some t0, some t1, some t2, some t3] h)
      = thresholdsBelow [some t0, some t1, some t2, some t3] h := by
  unfold heatClass thresholdsBelow
  simp only [List.getD_cons_zero, List.getD_cons_succ, jsGt]
  by_cases c3 : h > t3
  · have c2 : h > t2 := lt_of_le_of_lt h23 c3
    have c1 : h > t1 := lt_of_le_of_lt h12 c2
    have c0 : h > t0 := lt_of_le_of_lt h01 c1
    simp [c0, c1, c2, c3, binOfClass, List.filter_cons]
  · by_cases c2 : h > t2
    · have c1 : h > t1 := lt_of_le_of_lt h12 c2
      have c0 : h > t0 := lt_of_le_of_lt h01 c1
      simp [c0, c1, c2, c3, binOfClass, List.filter_cons]
    · by_cases c1 : h > t1
      · have c0 : h > t0 := lt_of_le_of_lt h01 c1
        simp [c0, c1, c2, c3, binOfClass, List.filter_cons]
      · by_cases c0 : h > t0
        · simp [c0, c1, c2, c3, binOfClass, List.filter_cons]
        · simp [c0, c1, c2, c3, binOfClass, List.filter_cons]

theorem sortedValues_ne_nil (totals : List DayTotal) (hne : totals ≠ []) :
    sortedValues totals ≠ [] := by
  intro h
  have h1 := sortedValues_length totals
  rw [h, List.length_nil] at h1
  exact hne (List.length_eq_zero.mp h1.symm)

/-- The class of hours that exceed none of the four thresholds is `c0`. -/
theorem heatClass_of_le (t0 t1 t2 t3 h : ℚ) (h0 : h ≤ t0) (h1 : h ≤ t1) (h2 : h ≤ t2)
    (h3 : h ≤ t3) : heatClass [some t0, some t1, some t2, some t3] h = "c0" := by
  unfold heatClass
  simp only [List.getD_cons_zero, List.getD_cons_succ, jsGt]
  simp [not_lt.mpr h0, not_lt.mpr h1, not_lt.mpr h2, not_lt.mpr h3]

/-- C12: for every non-empty list of daily totals the four thresholds `q(0.2)`, `q(0.4)`,
`q(0.6)`, `q(0.8)` of `renderHeatmap` are hours of entries of the list and are
non-decreasing; the bin given by the class cascade is monotone in the hours, equals the
number of thresholds strictly below the hours, and is 0 (class `c0`) for every entry that
holds the minimum daily total. -/
theorem heatmap_thresholds_bins (totals : List DayTotal) (hne : totals ≠ []) :
    ∃ t0 t1 t2 t3 : ℚ,
      thresholds (sortedValues totals) = [some t0, some t1, some t2, some t3] ∧
      (∀ t ∈ [t0, t1, t2, t3], ∃ d ∈ totals, d.hours = t) ∧
      t0 ≤ t1 ∧ t1 ≤ t2 ∧ t2 ≤ t3 ∧
      (∀ h1 h2 : ℚ, h1 ≤ h2 →
        binOfClass (heatClass (thresholds (sortedValues totals)) h1)
          ≤ binOfClass (heatClass (thresholds (sortedValues totals)) h2)) ∧
      (∀ h : ℚ, binOfClass (heatClass (thresholds (sortedValues totals)) h)
          = thresholdsBelow (thresholds (sortedValues totals)) h) ∧
      (∀ c ∈ totals, (∀ c' ∈ totals, c.hours ≤ c'.hours) →
        heatClass (thresholds (sortedValues totals)) c.hours = "c0" ∧
        binOfClass (heatClass (thresholds (sortedValues totals)) c.hours) = 0) := by
  have hs := sortedValues_sorted totals
  have hv := sortedValues_ne_nil totals hne
  obtain ⟨a0, b0, qa0, qb0, ma0, mb0, le0⟩ :=
    q_mono (sortedValues totals) (2 / 10) (4 / 10) hs hv (by norm_num) (by norm_num)
      (by norm_num)
  obtain ⟨a1, b1, qa1, qb1, _, mb1, le1⟩ :=
    q_mono (sortedValues totals) (4 / 10) (6 / 10) hs hv (by norm_num) (by norm_num)
      (by norm_num)
  obtain ⟨a2, b2, qa2, qb2, _, mb2, le2⟩ :=
    q_mono (sortedValues totals) (6 / 10) (8 / 10) hs hv (by norm_num) (by norm_num)
      (by norm_num)
  have e1 : a1 = b0 := Option.some.inj (qa1.symm.trans qb0)
  have e2 : a2 = b1 := Option.some.inj (qa2.symm.trans qb1)
  subst e1
  subst e2
  have hth : thresholds (sortedValues totals) = [some a0, some a1, some a2, some b2] := by
    unfold thresholds
    rw [qa0, qb0, qb1, qb2]
  have hmem : ∀ t ∈ [a0, a1, a2, b2], ∃ d ∈ totals, d.hours = t := by
    intro t ht
    simp only [List.mem_cons, List.mem_singleton, List.not_mem_nil, or_false] at ht
    rcases ht with rfl | rfl | rfl | rfl
    · exact (mem_sortedValues totals _).mp ma0
    · exact (mem_sortedValues totals _).mp mb0
    · exact (mem_sortedValues totals _).mp mb1
    · exact (mem_sortedValues totals _).mp mb2
  refine ⟨a0, a1, a2, b2, hth, hmem, le0, le1, le2, ?_, ?_, ?_⟩
  · intro h1 h2 h12
    rw [hth, binOfClass_heatClass a0 a1 a2 b2 h1 le0 le1 le2,
      binOfClass_heatClass a0 a1 a2 b2 h2 le0 le1 le2]
    exact thresholdsBelow_mono _ h1 h2 h12
  · intro h
    rw [hth]
    exact binOfClass_heatClass a0 a1 a2 b2 h le0 le1 le2
  · intro c _ hmin
    have hle : ∀ t ∈ [a0, a1, a2, b2], c.hours ≤ t := by
      intro t ht
      obtain ⟨d, hd, rfl⟩ := hmem t ht
      exact hmin d hd
    have hc : heatClass [some a0, some a1, some a2, some b2] c.hours = "c0" :=
      heatClass_of_le a0 a1 a2 b2 c.hours (hle a0 (by simp)) (hle a1 (by simp))
        (hle a2 (by simp)) (hle b2 (by simp))
    rw [hth, hc]
    exact ⟨rfl, by decide⟩

/-- Witness for C12: the daily totals 0, 3, 1, 2, 5 of five days. -/
theorem heatmap_thresholds_bins_witness :
    ([⟨0, 0⟩, ⟨86400000, 3⟩, ⟨172800000, 1⟩, ⟨259200000, 2⟩, ⟨345600000, 5⟩] : List DayTotal)
      ≠ [] ∧
    ∃ t0 t1 t2 t3 : ℚ,
      thresholds (sortedValues
        [⟨0, 0⟩, ⟨86400000, 3⟩, ⟨172800000, 1⟩, ⟨259200000, 2⟩, ⟨345600000, 5⟩])
        = [some t0, some t1, some t2, some t3] ∧
      t0 ≤ t1 ∧ t1 ≤ t2 ∧ t2 ≤ t3 :=
  ⟨by simp,
    (heatmap_thresholds_bins
      [⟨0, 0⟩, ⟨86400000, 3⟩, ⟨172800000, 1⟩, ⟨259200000, 2⟩, ⟨345600000, 5⟩] (by simp)).elim
      (fun t0 h0 => h0.elim (fun t1 h1 => h1.elim (fun t2 h2 => h2.elim (fun t3 h3 =>
        ⟨t0, t1, t2, t3, h3.1, h3.2.2.1, h3.2.2.2.1, h3.2.2.2.2.1⟩))))⟩

/-! ## Idempotence of start and stop -/

theorem findHabit_updateHabit (id : String) (f : Habit → Habit) (l : List Habit)
    (hid : ∀ h, (f h).id = h.id) :
    findHabit { habits := updateHabit id f l } id = (findHabit { habits := l } id).map f := by
  unfold findHabit
  induction l with
  | nil => rfl
  | cons x xs ih =>
    by_cases hx : (x.id == id) = true
    · have hfx : ((f x).id == id) = true := by rw [hid]; exact hx
      simp only [updateHabit, hx, if_true, List.find?_cons, hfx, Option.map_some']
    · have hx2 : (x.id == id) = false := by simpa using hx
      simp only [updateHabit, hx2, Bool.false_eq_true, if_false, List.find?_cons]
      exact ih

/-- Starting twice is starting once, for a first clock reading other than 0. -/
theorem startHabit_startHabit (state : State) (id : String) (now1 now2 : Int)
    (h1 : now1 ≠ 0) :
    startHabit (startHabit state id now1) id now2 = startHabit state id now1 := by
  cases hfind : findHabit state id with
  | none =>
    have e : startHabit state id now1 = state := by
      unfold startHabit
      rw [hfind]
    rw [e]
    unfold startHabit
    rw [hfind]
  | some h =>
    by_cases hact : truthy h.activeStart = true
    · rw [startHabit_of_truthy state id now1 h hfind hact]
      exact startHabit_of_truthy state id now2 h hfind hact
    · have e : startHabit state id now1
          = (⟨updateHabit id (fun h => { h with activeStart := some now1 }) state.habits⟩
              : State) := by
        unfold startHabit
        rw [hfind]
        simp only [hact]
        rfl
      rw [e]
      have hf := findHabit_updateHabit id (fun h => { h with activeStart := some now1 })
        state.habits (fun _ => rfl)
      have hs : findHabit { habits := state.habits } id = some h := hfind
      rw [hs, Option.map_some'] at hf
      exact startHabit_of_truthy _ id now2 { h with activeStart := some now1 } hf
        (by simp [truthy, h1])

theorem activeNonzero_updateHabit (state : State) (id : String) (f : Habit → Habit)
    (h : Habit) (hok : activeNonzero state) (hfind : findHabit state id = some h)
    (hf : ∀ t, (f h).activeStart = some t → t ≠ 0) :
    activeNonzero { habits := updateHabit id f state.habits } := by
  obtain ⟨l1, l2, e1, e2⟩ := updateHabit_of_find id f state.habits h hfind
  intro x hx
  simp only [e2, List.mem_append, List.mem_cons] at hx
  rcases hx with hx | rfl | hx
  · exact hok x (by rw [e1]; simp [hx])
  · exact hf
  · exact hok x (by rw [e1]; simp [hx])

theorem activeNonzero_step (state : State) (op : Op) (hok : activeNonzero state)
    (hclock : ∀ t ∈ clockReadings [op], t ≠ 0) : activeNonzero (step state op) := by
  cases op with
  | create id name goalHours =>
    intro x hx
    simp only [step, createHabit, List.mem_append, List.mem_singleton] at hx
    rcases hx with hx | rfl
    · exact hok x hx
    · simp
  | start id now =>
    have hnow : now ≠ 0 := hclock now (by simp [clockReadings])
    simp only [step]
    unfold startHabit
    cases hfind : findHabit state id with
    | none => exact hok
    | some h =>
      by_cases hact : truthy h.activeStart = true
      · simp only [hact, if_true]
        exact hok
      · simp only [hact]
        refine activeNonzero_updateHabit state id _ h hok hfind ?_
        intro t ht
        simp only [Option.some.injEq] at ht
        omega
  | stop id now =>
    simp only [step]
    unfold stopHabit
    cases hfind : findHabit state id with
    | none => exact hok
    | some h =>
      by_cases hact : truthy h.activeStart = true
      · simp only [hact, Bool.not_true]
        cases hst : h.activeStart with
        | none => exact hok
        | some start =>
          simp only []
          refine activeNonzero_updateHabit state id _ h hok hfind ?_
          intro t ht
          simp at ht
      · have hact2 : truthy h.activeStart = false := by simpa using hact
        simp only [hact2, Bool.not_false, if_true]
        exact hok
  | manualAdd id start end_ =>
    simp only [step]
    unfold manualAddSession
    cases hfind : findHabit state id with
    | none => exact hok
    | some h =>
      cases start with
      | none => exact hok
      | some s =>
        cases end_ with
        | none => exact hok
        | some e =>
          simp only []
          split_ifs with hg
          · exact hok
          · refine activeNonzero_updateHabit state id _ h hok hfind ?_
            intro t ht
            exact hok h (List.mem_of_find?_eq_some hfind) t ht

theorem activeNonzero_run (ops : List Op) (state : State) (hok : activeNonzero state)
    (hclock : ∀ t ∈ clockReadings ops, t ≠ 0) : activeNonzero (run state ops) := by
  induction ops generalizing state with
  | nil => exact hok
  | cons op ops ih =>
    have h1 : ∀ t ∈ clockReadings [op], t ≠ 0 := by
      intro t ht
      apply hclock t
      cases op <;> simp_all [clockReadings]
    have h2 : ∀ t ∈ clockReadings ops, t ≠ 0 := by
      intro t ht
      apply hclock t
      cases op <;> simp_all [clockReadings]
    exact ih (step state op) (activeNonzero_step state op hok h1) h2

/-- C9: `startHabit` on a habit whose `activeStart` is already set leaves the whole habit
collection unchanged, so that starting twice equals starting once, and `stopHabit` on a
habit with no active session (or on an unknown id) leaves the whole habit collection
unchanged. Set is what the code itself tests, the truthiness of `activeStart`: `null` and the
instant 0 both count as not set. In every state reached from the empty store by calls whose
clock readings are not 0, an `activeStart` other than `null` is truthy, so there `startHabit`
is a no-op on every habit whose `activeStart` is not `null` and `stopHabit` on every habit
whose `activeStart` is `null`. -/
theorem startHabit_stopHabit_noop :
    (∀ (state : State) (id : String) (now : Int) (h : Habit),
        findHabit state id = some h → truthy h.activeStart = true →
        startHabit state id now = state) ∧
    (∀ (state : State) (id : String) (now1 now2 : Int), now1 ≠ 0 →
        startHabit (startHabit state id now1) id now2 = startHabit state id now1) ∧
    (∀ (state : State) (id : String) (now : Int),
        (∀ h, findHabit state id = some h → truthy h.activeStart = false) →
        stopHabit state id now = state) ∧
    (∀ ops : List Op, (∀ t ∈ clockReadings ops, t ≠ 0) →
        ∀ h ∈ (run emptyState ops).habits, truthy h.activeStart = h.activeStart.isSome) ∧
    (∀ (ops : List Op) (id : String) (now : Int) (h : Habit) (t : Int),
        (∀ r ∈ clockReadings ops, r ≠ 0) → findHabit (run emptyState ops) id = some h →
        h.activeStart = some t → startHabit (run emptyState ops) id now = run emptyState ops) ∧
    (∀ (ops : List Op) (id : String) (now : Int) (h : Habit),
        findHabit (run emptyState ops) id = some h → h.activeStart = none →
        stopHabit (run emptyState ops) id now = run emptyState ops) := by
  have hreach : ∀ ops : List Op, (∀ t ∈ clockReadings ops, t ≠ 0) →
      ∀ h ∈ (run emptyState ops).habits, truthy h.activeStart = h.activeStart.isSome := by
    intro ops hclock h hh
    have hok : activeNonzero (run emptyState ops) :=
      activeNonzero_run ops emptyState (by intro x hx; simp [emptyState] at hx) hclock
    cases hst : h.activeStart with
    | none => rfl
    | some t => simp [truthy, hok h hh t hst]
  refine ⟨startHabit_of_truthy, startHabit_startHabit, stopHabit_of_falsy, hreach, ?_, ?_⟩
  · intro ops id now h t hclock hfind hst
    have hmem : h ∈ (run emptyState ops).habits := List.mem_of_find?_eq_some hfind
    have htr := hreach ops hclock h hmem
    rw [hst] at htr
    exact startHabit_of_truthy _ id now h hfind (by rw [hst]; exact htr)
  · intro ops id now h hfind hst
    apply stopHabit_of_falsy
    intro h2 hfind2
    have e : h2 = h := Option.some.inj (hfind2.symm.trans hfind)
    rw [e, hst]
    rfl

/-- Witness for C9: a store with a habit started at clock reading 1000 and a habit that is
not running. -/
theorem startHabit_stopHabit_noop_witness :
    findHabit ⟨[⟨"a", "read", 10, [], some 1000⟩, ⟨"b", "run", 3, [], none⟩]⟩ "a"
      = some ⟨"a", "read", 10, [], some 1000⟩ ∧
    truthy (⟨"a", "read", 10, [], some 1000⟩ : Habit).activeStart = true ∧
    startHabit ⟨[⟨"a", "read", 10, [], some 1000⟩, ⟨"b", "run", 3, [], none⟩]⟩ "a" 2000
      = ⟨[⟨"a", "read", 10, [], some 1000⟩, ⟨"b", "run", 3, [], none⟩]⟩ ∧
    stopHabit ⟨[⟨"a", "read", 10, [], some 1000⟩, ⟨"b", "run", 3, [], none⟩]⟩ "b" 2000
      = ⟨[⟨"a", "read", 10, [], some 1000⟩, ⟨"b", "run", 3, [], none⟩]⟩ ∧
    startHabit (startHabit ⟨[⟨"b", "run", 3, [], none⟩]⟩ "b" 1000) "b" 2000
      = ⟨[⟨"b", "run", 3, [], some 1000⟩]⟩ :=
  ⟨by decide, by decide,
    startHabit_stopHabit_noop.1 _ "a" 2000 ⟨"a", "read", 10, [], some 1000⟩ (by decide)
      (by decide),
    startHabit_stopHabit_noop.2.2.1 _ "b" 2000 (by decide),
    (startHabit_stopHabit_noop.2.1 ⟨[⟨"b", "run", 3, [], none⟩]⟩ "b" 1000 2000
      (by decide)).trans (by decide)⟩

end HabitGarden
